import Mathlib

/-
  Verification of the xv6 file-system consistency checker (xcheck.c).

  The checker walks an on-disk image: superblock, inode table, free-block
  bitmap, data blocks holding file bytes or directory-entry records.  We
  embed the image as a collection of read oracles at the granularities the
  C code uses (inode records, directory-entry records, 4-byte words, single
  bytes), and transcribe each error_check_N function and the main driver.
  Definitions named error_check_N, inodeStep, scanFrom and runMain follow
  the C source; definitions named spec... follow the wording of the
  specification and are compared with the code-side definitions.
-/

set_option maxRecDepth 10000

namespace XCheck

/-- Block size of the image format (BSIZE in fs.h). -/
def BSIZE : Nat := 512

/-- Number of direct pointer slots in an inode (NDIRECT in fs.h). -/
def NDIRECT : Nat := 12

/-- Fan-out of an indirect block: BSIZE divided by the 4-byte word size. -/
def NINDIRECT : Nat := 128

/-- Width of a directory-entry name field (DIRSIZ in fs.h). -/
def DIRSIZ : Nat := 14

/-- Inode type tag for directories (T_DIR in stat.h). -/
def T_DIR : Nat := 1

/-- Inode type tag for regular files (T_FILE in stat.h). -/
def T_FILE : Nat := 2

/-- Inode type tag for devices (T_DEV in stat.h). -/
def T_DEV : Nat := 3

/-- The parsed superblock record (struct superblock in fs.h). -/
structure Superblock where
  size : Nat
  nblocks : Nat
  ninodes : Nat
  nlog : Nat
  logstart : Nat
  inodestart : Nat
  bmapstart : Nat

/-- An on-disk inode record (struct dinode in fs.h).  The addrs function
gives the NDIRECT direct block numbers at indices 0..11 and the indirect
block number at index NDIRECT. -/
structure Dinode where
  type : Nat
  major : Nat
  minor : Nat
  nlink : Nat
  size : Nat
  addrs : Nat → Nat

/-- A directory-entry record (struct dirent in fs.h): a 2-byte inode number
and a DIRSIZ-byte name, modelled as the byte at each name index. -/
structure Dirent where
  inum : Nat
  name : Nat → Nat

/-- The open image file together with the loaded superblock.  Each field is
a read oracle at one granularity used by the C code: a struct dinode read
at a byte offset, a struct dirent read at a byte offset, a 4-byte unsigned
read at a byte offset, and a single unsigned byte read at a byte offset. -/
structure Disk where
  sb : Superblock
  inodeAt : Nat → Dinode
  direntAt : Nat → Dirent
  uintAt : Nat → Nat
  byteAt : Nat → Nat

/-- Size in bytes of a struct dinode record. -/
def dinodeSize : Nat := 64

/-- Size in bytes of a struct dirent record. -/
def direntSize : Nat := 16

/-- Reading inode number n: lseek to inodestart times BSIZE + n times sizeof(dinode). -/
def readInode (d : Disk) (sb : Superblock) (n : Nat) : Dinode :=
  d.inodeAt (sb.inodestart * BSIZE + n * dinodeSize)

/-- The in-memory block usage array (uint in_use[sblock.size] in main). -/
abbrev InUse := Nat → Nat

/-- strncmp(s1, s2, n) == 0, transcribed: compare byte by byte, stopping at
a difference, at a common NUL, or after n bytes. -/
def strncmpEq (s1 s2 : Nat → Nat) : Nat → Nat → Bool
  | 0, _ => true
  | k+1, i =>
    if s1 i ≠ s2 i then false
    else if s1 i = 0 then true
    else strncmpEq s1 s2 k (i+1)

/-- The string literal "." as a byte sequence (46 is the dot character). -/
def dotName : Nat → Nat := fun i => if i = 0 then 46 else 0

/-- The string literal ".." as a byte sequence. -/
def dotdotName : Nat → Nat := fun i => if i < 2 then 46 else 0

/-- strncmp(name, lit, DIRSIZ) == 0 as used on directory-entry names. -/
def matchName (s lit : Nat → Nat) : Bool := strncmpEq s lit DIRSIZ 0

/-- A C loop of the shape: for (k iterations starting at index i) if p then
return 1; ... return 0. -/
def findFlag (p : Nat → Prop) [DecidablePred p] : Nat → Nat → Nat
  | 0, _ => 0
  | k+1, i => if p i then 1 else findFlag p k (i+1)

/-- A C loop of the shape: for (k iterations starting at index i) acc = f i
acc, returning the final accumulator. -/
def accGo (f : Nat → Nat → Nat) : Nat → Nat → Nat → Nat
  | 0, _, acc => acc
  | k+1, i, acc => accGo f k (i+1) (f i acc)

/-- error_check_1: the inode type must be 0, T_DEV, T_DIR or T_FILE. -/
def error_check_1 (nd : Dinode) : Nat :=
  if nd.type ≠ 0 ∧ nd.type ≠ T_DEV ∧ nd.type ≠ T_DIR ∧ nd.type ≠ T_FILE then 1
  else 0

/-- bitmap_end as computed at the top of error_check_2: bmapstart plus
size / (8 * BSIZE), incremented when the division has a remainder. -/
def bitmapEnd (sb : Superblock) : Nat :=
  sb.bmapstart + sb.size / (8 * BSIZE) + (if sb.size % (8 * BSIZE) ≠ 0 then 1 else 0)

/-- error_check_2: every non-zero slot among the NDIRECT+1 address slots,
and every non-zero pointer read from the indirect block, must lie in the
range bitmap_end ≤ addr ≤ size - 1. -/
def error_check_2 (d : Disk) (sb : Superblock) (nd : Dinode) : Nat :=
  if findFlag
      (fun i => nd.addrs i ≠ 0 ∧ (nd.addrs i < bitmapEnd sb ∨ nd.addrs i > sb.size - 1))
      (NDIRECT + 1) 0 = 1 then 1
  else if nd.addrs NDIRECT ≠ 0 then
    findFlag
      (fun j => d.uintAt (nd.addrs NDIRECT * BSIZE + j * 4) ≠ 0 ∧
        (d.uintAt (nd.addrs NDIRECT * BSIZE + j * 4) < bitmapEnd sb ∨
         d.uintAt (nd.addrs NDIRECT * BSIZE + j * 4) > sb.size - 1))
      NINDIRECT 0
  else 0

/-- error_check_3: the root inode (inode 1) must be a directory and some
direct data block of it must hold an entry named ".." with inum 1. -/
def error_check_3 (d : Disk) (sb : Superblock) : Nat :=
  if (readInode d sb 1).type ≠ T_DIR then 1
  else if findFlag
      (fun i => (readInode d sb 1).addrs i ≠ 0 ∧
        findFlag
          (fun k =>
            (d.direntAt ((readInode d sb 1).addrs i * BSIZE + k * direntSize)).inum ≠ 0 ∧
            matchName (d.direntAt ((readInode d sb 1).addrs i * BSIZE + k * direntSize)).name
              dotdotName = true ∧
            (d.direntAt ((readInode d sb 1).addrs i * BSIZE + k * direntSize)).inum = 1)
          32 0 = 1)
      NDIRECT 0 = 1 then 0
  else 1

/-- The inner loop of error_check_4 over the 32 entry records of one
block: add 1 for an entry named "." with inum equal to inode_num, and 1
for an entry named "..". -/
def check4Block (d : Disk) (blk inode_num acc : Nat) : Nat :=
  accGo
    (fun k a =>
      let a2 :=
        if matchName (d.direntAt (blk * BSIZE + k * direntSize)).name dotName = true ∧
          (d.direntAt (blk * BSIZE + k * direntSize)).inum = inode_num
        then a + 1 else a
      if matchName (d.direntAt (blk * BSIZE + k * direntSize)).name dotdotName = true
      then a2 + 1 else a2)
    32 0 acc

/-- error_check_4: count, over the 32 entry records of each non-zero direct
block, the entries named "." with inum equal to the inode number plus the
entries named ".."; the total must be exactly 2. -/
def error_check_4 (d : Disk) (nd : Dinode) (inode_num : Nat) : Nat :=
  if accGo
      (fun i acc =>
        if nd.addrs i ≠ 0 then check4Block d (nd.addrs i) inode_num acc else acc)
      NDIRECT 0 0 ≠ 2 then 1
  else 0

/-- error_check_5: the bitmap bit of every referenced block must be 1; the
bit is read as bit addr mod 8 of the unsigned word at byte offset
bmapstart times BSIZE + addr / 8. -/
def error_check_5 (d : Disk) (sb : Superblock) (nd : Dinode) : Nat :=
  if findFlag
      (fun i => nd.addrs i ≠ 0 ∧
        (d.uintAt (sb.bmapstart * BSIZE + nd.addrs i / 8) >>> (nd.addrs i % 8)) &&& 1 = 0)
      (NDIRECT + 1) 0 = 1 then 1
  else if nd.addrs NDIRECT ≠ 0 then
    findFlag
      (fun j => d.uintAt (nd.addrs NDIRECT * BSIZE + j * 4) ≠ 0 ∧
        (d.uintAt (sb.bmapstart * BSIZE + d.uintAt (nd.addrs NDIRECT * BSIZE + j * 4) / 8) >>>
          (d.uintAt (nd.addrs NDIRECT * BSIZE + j * 4) % 8)) &&& 1 = 0)
      NINDIRECT 0
  else 0

/-- The inner loop of error_check_6: for 8 bit offsets, if the bit is set
and the usage array entry at cnt + offset is 0, report. -/
def check6Inner (bits : Nat) (u : InUse) (cnt : Nat) : Nat → Nat → Bool
  | 0, _ => false
  | k+1, off =>
    if (bits >>> off) % 2 ≠ 0 ∧ u (cnt + off) = 0 then true
    else check6Inner bits u cnt k (off+1)

/-- The outer loop of error_check_6: while i < size, read the byte at
base + k, test its 8 bits against usage entries i..i+7, step i by 8.  The
first argument is structural fuel; size iterations always suffice. -/
def check6Outer (d : Disk) (sb : Superblock) (u : InUse) (base : Nat) :
    Nat → Nat → Nat → Nat
  | 0, _, _ => 0
  | f+1, i, k =>
    if i < sb.size then
      if check6Inner (d.byteAt (base + k)) u i 8 0 = true then 1
      else check6Outer d sb u base f (i + 8) (k + 1)
    else 0

/-- error_check_6: sweep bitmap bytes starting at byte offset
bmapstart times BSIZE + size/8 - nblocks/8, pairing consecutive bits with block
numbers counted from bmapstart + 1. -/
def error_check_6 (d : Disk) (sb : Superblock) (u : InUse) : Nat :=
  check6Outer d sb u (sb.bmapstart * BSIZE + sb.size / 8 - sb.nblocks / 8)
    sb.size (sb.bmapstart + 1) 0

/-- The loop of error_check_7 over the NDIRECT+1 address slots: report 1 at
the first non-zero slot already marked in the usage array, marking the
slots passed over. -/
def check7Go (nd : Dinode) : Nat → Nat → InUse → Nat × InUse
  | 0, _, u => (0, u)
  | k+1, i, u =>
    if nd.addrs i ≠ 0 then
      if u (nd.addrs i) ≠ 0 then (1, u)
      else check7Go nd k (i+1) (fun b => if b = nd.addrs i then 1 else u b)
    else check7Go nd k (i+1) u

/-- error_check_7: no direct or indirect pointer slot may name a block that
the usage array already marks; mark each as it is passed. -/
def error_check_7 (nd : Dinode) (u : InUse) : Nat × InUse :=
  check7Go nd (NDIRECT + 1) 0 u

/-- The loop of error_check_8 over the NINDIRECT pointers stored in the
indirect block. -/
def check8Go (d : Disk) (nd : Dinode) : Nat → Nat → InUse → Nat × InUse
  | 0, _, u => (0, u)
  | k+1, j, u =>
    if d.uintAt (nd.addrs NDIRECT * BSIZE + j * 4) ≠ 0 then
      if u (d.uintAt (nd.addrs NDIRECT * BSIZE + j * 4)) = 1 then (1, u)
      else check8Go d nd k (j+1)
        (fun b => if b = d.uintAt (nd.addrs NDIRECT * BSIZE + j * 4) then 1 else u b)
    else check8Go d nd k (j+1) u

/-- error_check_8: the blocks named inside the indirect block must not
already be marked in the usage array; mark each as it is passed. -/
def error_check_8 (d : Disk) (nd : Dinode) (u : InUse) : Nat × InUse :=
  if nd.addrs NDIRECT ≠ 0 then check8Go d nd NINDIRECT 0 u else (0, u)

/-
  error_check_9 contains an indexing slip in the C source: the loop over
  the direct blocks of a candidate parent directory is written
  for(uint j = 0; j < NDIRECT; ++i), so the inner index j stays 0 while
  the outer inode index i grows without bound.  The loop therefore either
  returns 0 (when block addrs[0] of the candidate exists and its first
  entry record names the searched inode) or never terminates.  We model
  the inner loop with structural fuel; a result of none stands for a
  non-terminating execution.
-/

/-- The direct-block loop of error_check_9 as written in the source: the
condition tests j, the update increments i.  Sum.inl r models return r,
Sum.inr i models normal loop exit with the final value of i, none models
running out of fuel (divergence). -/
def ec9Inner (d : Disk) (tmp : Dinode) (inode_num : Nat) :
    Nat → Nat → Nat → Option (Sum Nat Nat)
  | 0, _, _ => none
  | fuel+1, i, j =>
    if j < NDIRECT then
      if tmp.addrs j ≠ 0 then
        if (d.direntAt (tmp.addrs j * BSIZE)).inum = inode_num then some (Sum.inl 0)
        else ec9Inner d tmp inode_num fuel (i+1) j
      else ec9Inner d tmp inode_num fuel (i+1) j
    else some (Sum.inr i)

/-- The indirect-block section of error_check_9: for each non-zero pointer
in the indirect block, read the first entry record of the pointed block
and test its inum. -/
def ec9Indirect (d : Disk) (tmp : Dinode) (inode_num : Nat) : Nat :=
  if tmp.addrs NDIRECT ≠ 0 then
    findFlag
      (fun j => d.uintAt (tmp.addrs NDIRECT * BSIZE + j * 4) ≠ 0 ∧
        (d.direntAt (d.uintAt (tmp.addrs NDIRECT * BSIZE + j * 4) * BSIZE)).inum = inode_num)
      NINDIRECT 0
  else 0

/-- The outer inode loop of error_check_9: scan inodes from index i; at a
candidate parent (a directory other than the checked inode and other than
inode 1) run the direct-block loop, then the indirect section, then
continue from the final outer index plus one. -/
def ec9Go (d : Disk) (sb : Superblock) (inode_num : Nat) : Nat → Nat → Option Nat
  | 0, _ => none
  | fuel+1, i =>
    if i < sb.ninodes then
      if (readInode d sb i).type = T_DIR ∧ inode_num ≠ i ∧ i ≠ 1 then
        match ec9Inner d (readInode d sb i) inode_num fuel i 0 with
        | none => none
        | some (Sum.inl r) => some r
        | some (Sum.inr i2) =>
          if ec9Indirect d (readInode d sb i) inode_num = 1 then some 0
          else ec9Go d sb inode_num fuel (i2 + 1)
      else ec9Go d sb inode_num fuel (i + 1)
    else some 1

/-- error_check_9 with explicit fuel; some r is a run returning r, none a
run that does not terminate within the given fuel. -/
def error_check_9 (d : Disk) (sb : Superblock) (inode_num fuel : Nat) : Option Nat :=
  ec9Go d sb inode_num fuel 0

/-- error_check_10: every entry record with non-zero inum found in the
direct blocks, or in the blocks named by the indirect block (read without
a zero guard, exactly as in the source), must name an inode whose type is
not 0. -/
def error_check_10 (d : Disk) (sb : Superblock) (nd : Dinode) : Nat :=
  if findFlag
      (fun i => nd.addrs i ≠ 0 ∧
        findFlag
          (fun j =>
            (d.direntAt (nd.addrs i * BSIZE + j * direntSize)).inum ≠ 0 ∧
            (readInode d sb ((d.direntAt (nd.addrs i * BSIZE + j * direntSize)).inum)).type = 0)
          32 0 = 1)
      NDIRECT 0 = 1 then 1
  else if nd.addrs NDIRECT ≠ 0 then
    findFlag
      (fun i =>
        findFlag
          (fun j =>
            (d.direntAt (d.uintAt (nd.addrs NDIRECT * BSIZE + i * 4) * BSIZE +
              j * direntSize)).inum ≠ 0 ∧
            (readInode d sb ((d.direntAt (d.uintAt (nd.addrs NDIRECT * BSIZE + i * 4) * BSIZE +
              j * direntSize)).inum)).type = 0)
          32 0 = 1)
      NINDIRECT 0
  else 0

/-- The inner loop shared verbatim by error_check_11 and error_check_12:
count the entry records of one block whose inum equals inode_num. -/
def countBlock (d : Disk) (blk inode_num acc : Nat) : Nat :=
  accGo
    (fun k a =>
      if (d.direntAt (blk * BSIZE + k * direntSize)).inum = inode_num then a + 1 else a)
    32 0 acc

/-- The counting scan shared verbatim by error_check_11 and
error_check_12: over every inode of type T_DIR, count the entry records of
its non-zero direct blocks and of the non-zero blocks named by its
indirect block whose inum equals inode_num. -/
def refScan (d : Disk) (sb : Superblock) (inode_num : Nat) : Nat :=
  accGo
    (fun i acc =>
      if (readInode d sb i).type = T_DIR then
        let acc2 :=
          accGo
            (fun j a =>
              if (readInode d sb i).addrs j ≠ 0 then
                countBlock d ((readInode d sb i).addrs j) inode_num a
              else a)
            NDIRECT 0 acc
        if (readInode d sb i).addrs NDIRECT ≠ 0 then
          accGo
            (fun j a =>
              if d.uintAt ((readInode d sb i).addrs NDIRECT * BSIZE + j * 4) ≠ 0 then
                countBlock d
                  (d.uintAt ((readInode d sb i).addrs NDIRECT * BSIZE + j * 4)) inode_num a
              else a)
            NINDIRECT 0 acc2
        else acc2
      else acc)
    sb.ninodes 0 0

/-- error_check_11: the system-wide count of entry records naming
inode_num must equal the nlink field of the inode. -/
def error_check_11 (d : Disk) (sb : Superblock) (nd : Dinode) (inode_num : Nat) : Nat :=
  if refScan d sb inode_num ≠ nd.nlink then 1 else 0

/-- error_check_12: the system-wide count of entry records naming
inode_num must equal exactly 1. -/
def error_check_12 (d : Disk) (sb : Superblock) (nd : Dinode) (inode_num : Nat) : Nat :=
  if refScan d sb inode_num ≠ 1 then 1 else 0

/-- Diagnostic printed when error_check_1 fires. -/
def msgBadInode : String := "ERROR: bad inode\n"

/-- Diagnostic printed when error_check_2 fires. -/
def msgBadIndirect : String := "ERROR: bad indirect address in inode\n"

/-- Diagnostic printed when error_check_3 fires. -/
def msgRoot : String := "ERROR: root directory does not exist\n"

/-- Diagnostic printed when error_check_4 fires. -/
def msgDirFmt : String := "ERROR: directory not properly formatted\n"

/-- Diagnostic printed when error_check_5 fires. -/
def msgBitmapFree : String := "ERROR: address used by inode but marked free in bitmap\n"

/-- Diagnostic printed when error_check_6 fires. -/
def msgBitmap : String := "ERROR: bitmap marks block in use but it is not in use\n"

/-- Diagnostic printed when error_check_7 fires. -/
def msgDupDirect : String := "ERROR: direct address used more than once\n"

/-- Diagnostic printed when error_check_8 fires. -/
def msgDupIndirect : String := "ERROR: indirect address used more than once\n"

/-- Diagnostic printed when error_check_9 fires. -/
def msgNotFound : String := "ERROR: inode marked use but not found in a directory\n"

/-- Diagnostic printed when error_check_10 fires. -/
def msgRefFree : String := "ERROR: inode referred to in directory but marked free\n"

/-- Diagnostic printed when error_check_12 fires. -/
def msgDirDup : String := "ERROR: directory appears more than once in file system\n"

/-- Diagnostic printed when error_check_11 fires. -/
def msgRefCnt : String := "ERROR: bad reference count for file\n"

/-- The directory-specific tail of the per-inode loop body in main:
error_check_4, then for non-root inodes error_check_9 and error_check_12,
then error_check_10. -/
def dirChecks (d : Disk) (sb : Superblock) (u : InUse) (n fuel : Nat) (nd : Dinode) :
    Option (Option String × InUse) :=
  if error_check_4 d nd n = 1 then some (some msgDirFmt, u)
  else if n ≠ 1 then
    match error_check_9 d sb n fuel with
    | none => none
    | some r9 =>
      if r9 = 1 then some (some msgNotFound, u)
      else if error_check_12 d sb nd n = 1 then some (some msgDirDup, u)
      else if error_check_10 d sb nd = 1 then some (some msgRefFree, u)
      else some (none, u)
  else if error_check_10 d sb nd = 1 then some (some msgRefFree, u)
  else some (none, u)

/-- The type-dispatched tail of the per-inode loop body in main: directory
checks for T_DIR, error_check_11 for T_FILE, nothing otherwise. -/
def typeChecks (d : Disk) (sb : Superblock) (u : InUse) (n fuel : Nat) (nd : Dinode) :
    Option (Option String × InUse) :=
  if nd.type = T_DIR then dirChecks d sb u n fuel nd
  else if nd.type = T_FILE then
    if error_check_11 d sb nd n = 1 then some (some msgRefCnt, u)
    else some (none, u)
  else some (none, u)

/-- One iteration of the inode loop in main for inode number n: the result
is none when the iteration does not terminate (error_check_9), some with
the first diagnostic and the updated usage array otherwise. -/
def inodeStep (d : Disk) (sb : Superblock) (u : InUse) (n fuel : Nat) :
    Option (Option String × InUse) :=
  if error_check_1 (readInode d sb n) = 1 then some (some msgBadInode, u)
  else if (readInode d sb n).type ≠ 0 then
    if error_check_2 d sb (readInode d sb n) = 1 then some (some msgBadIndirect, u)
    else if error_check_5 d sb (readInode d sb n) = 1 then some (some msgBitmapFree, u)
    else
      let p7 := error_check_7 (readInode d sb n) u
      if p7.1 = 1 then some (some msgDupDirect, p7.2)
      else
        let p8 := error_check_8 d (readInode d sb n) p7.2
        if p8.1 = 1 then some (some msgDupIndirect, p8.2)
        else typeChecks d sb p8.2 n fuel (readInode d sb n)
  else some (none, u)

/-- The inode loop of main, processing k inodes starting at index i with
usage array u: the result records the index of the aborting inode and its
diagnostic, or none as message if every inode passed. -/
def scanFrom (d : Disk) (sb : Superblock) (fuel : Nat) :
    Nat → Nat → InUse → Option (Option (Nat × String) × InUse)
  | _, 0, u => some (none, u)
  | i, k+1, u =>
    match inodeStep d sb u i fuel with
    | none => none
    | some (some msg, u2) => some (some (i, msg), u2)
    | some (none, u2) => scanFrom d sb fuel (i+1) k u2

/-- The usage array as initialised by main: all zero. -/
def u0 : InUse := fun _ => 0

/-- The whole run of main after the image is opened: error_check_3 first,
then the inode loop over all inodes, then error_check_6 on the final usage
array.  The result is the exit status together with the diagnostic written
to standard error; none models a run that does not terminate. -/
def runMain (d : Disk) (fuel : Nat) : Option (Nat × Option String) :=
  if error_check_3 d d.sb = 1 then some (1, some msgRoot)
  else
    match scanFrom d d.sb fuel 0 d.sb.ninodes u0 with
    | none => none
    | some (some (_, msg), _) => some (1, some msg)
    | some (none, st) =>
      if error_check_6 d d.sb st = 1 then some (1, some msgBitmap)
      else some (0, none)

/-- The message component of inodeStep, forgetting the usage array. -/
def stepMsg (d : Disk) (sb : Superblock) (u : InUse) (n fuel : Nat) : Option (Option String) :=
  (inodeStep d sb u n fuel).map Prod.fst

/-- The message component of scanFrom, forgetting the usage array. -/
def scanMsg (d : Disk) (sb : Superblock) (fuel i k : Nat) (u : InUse) :
    Option (Option (Nat × String)) :=
  (scanFrom d sb fuel i k u).map Prod.fst

/-
  Spec-side definitions.  Each follows the wording of the specification or
  of the claim under examination, to be compared with the code-side
  functions above.
-/

/-- Spec wording for claim C1: a non-zero block address strictly below
bitmap_end or strictly above total_blocks - 1. -/
def specBadAddr (sb : Superblock) (a : Nat) : Prop :=
  a ≠ 0 ∧ (a < bitmapEnd sb ∨ sb.size - 1 < a)

/-- Spec wording for claim C1: some bad address among the 12 direct
pointers, the indirect pointer itself, or the NINDIRECT pointers stored
inside the indirect block. -/
def specBadAddrExists (d : Disk) (sb : Superblock) (nd : Dinode) : Prop :=
  (∃ i < NDIRECT + 1, specBadAddr sb (nd.addrs i)) ∨
  (nd.addrs NDIRECT ≠ 0 ∧
    ∃ j < NINDIRECT, specBadAddr sb (d.uintAt (nd.addrs NDIRECT * BSIZE + j * 4)))

/-- Spec wording for claims C2 and C8: the number of entry records of one
data block whose inum equals n. -/
def specBlockRefs (d : Disk) (blk n : Nat) : Nat :=
  ∑ k ∈ Finset.range 32, if (d.direntAt (blk * BSIZE + k * direntSize)).inum = n then 1 else 0

/-- Spec wording for claims C2 and C8: the number of entry records of the
direct and indirect data blocks of directory inode i whose inum equals n
(zero for non-directory inodes). -/
def specInodeRefs (d : Disk) (sb : Superblock) (i n : Nat) : Nat :=
  if (readInode d sb i).type = T_DIR then
    (∑ j ∈ Finset.range NDIRECT,
      if (readInode d sb i).addrs j ≠ 0 then specBlockRefs d ((readInode d sb i).addrs j) n
      else 0) +
    (if (readInode d sb i).addrs NDIRECT ≠ 0 then
      ∑ j ∈ Finset.range NINDIRECT,
        if d.uintAt ((readInode d sb i).addrs NDIRECT * BSIZE + j * 4) ≠ 0 then
          specBlockRefs d (d.uintAt ((readInode d sb i).addrs NDIRECT * BSIZE + j * 4)) n
        else 0
    else 0)
  else 0

/-- Spec wording for claims C2 and C8: the count of directory entries
system-wide whose inum equals n, summed over every entry record of every
directory inode. -/
def specCountRefs (d : Disk) (sb : Superblock) (n : Nat) : Nat :=
  ∑ i ∈ Finset.range sb.ninodes, specInodeRefs d sb i n

/-- Spec wording for claim C7: the number of matches in one data block
between entries named "." with inum n and entries named ".." with any
inum. -/
def specBlockShape (d : Disk) (blk n : Nat) : Nat :=
  ∑ k ∈ Finset.range 32,
    ((if matchName (d.direntAt (blk * BSIZE + k * direntSize)).name dotName = true ∧
        (d.direntAt (blk * BSIZE + k * direntSize)).inum = n then 1 else 0) +
     (if matchName (d.direntAt (blk * BSIZE + k * direntSize)).name dotdotName = true
      then 1 else 0))

/-- The shape matches counted over the direct data blocks of an inode. -/
def specShapeDirect (d : Disk) (nd : Dinode) (n : Nat) : Nat :=
  ∑ j ∈ Finset.range NDIRECT,
    if nd.addrs j ≠ 0 then specBlockShape d (nd.addrs j) n else 0

/-- Spec wording for claim C7: the shape matches counted over all entry
records of all the data blocks of an inode, the blocks named by the
indirect block included. -/
def specShapeAll (d : Disk) (nd : Dinode) (n : Nat) : Nat :=
  specShapeDirect d nd n +
  (if nd.addrs NDIRECT ≠ 0 then
    ∑ j ∈ Finset.range NINDIRECT,
      if d.uintAt (nd.addrs NDIRECT * BSIZE + j * 4) ≠ 0 then
        specBlockShape d (d.uintAt (nd.addrs NDIRECT * BSIZE + j * 4)) n
      else 0
  else 0)

/-- Spec wording for claim C5: the 32 entry records of the block starting
at blk contain one named ".." with inum 1. -/
def specDotDotAt (d : Disk) (blk : Nat) : Prop :=
  ∃ k < 32, matchName (d.direntAt (blk * BSIZE + k * direntSize)).name dotdotName = true ∧
    (d.direntAt (blk * BSIZE + k * direntSize)).inum = 1

/-- Spec wording for claim C5: some entry named ".." with inum 1 exists
among the entries of the root directory, its direct data blocks and the
blocks named by its indirect block alike. -/
def specRootHasDotDot (d : Disk) (sb : Superblock) : Prop :=
  (∃ j < NDIRECT, (readInode d sb 1).addrs j ≠ 0 ∧
    specDotDotAt d ((readInode d sb 1).addrs j)) ∨
  ((readInode d sb 1).addrs NDIRECT ≠ 0 ∧
    ∃ j < NINDIRECT, d.uintAt ((readInode d sb 1).addrs NDIRECT * BSIZE + j * 4) ≠ 0 ∧
      specDotDotAt d (d.uintAt ((readInode d sb 1).addrs NDIRECT * BSIZE + j * 4)))

/-- Claim C4 wording: some data block whose bitmap bit is 1 is not marked
in the usage array, the bit of block b being bit b mod 8 of the bitmap
byte b / 8. -/
def specBitmapViol (d : Disk) (sb : Superblock) (u : InUse) : Prop :=
  ∃ b < sb.size, bitmapEnd sb ≤ b ∧
    (d.byteAt (sb.bmapstart * BSIZE + b / 8) >>> (b % 8)) % 2 = 1 ∧ u b = 0

/-- What the sweep of error_check_6 actually tests: bit off of the byte
read at base + t is set while the usage entry of block bmapstart+1+8t+off
is 0, for some iteration t with bmapstart+1+8t below size. -/
def ec6Hits (d : Disk) (sb : Superblock) (u : InUse) : Prop :=
  ∃ t < sb.size, sb.bmapstart + 1 + 8 * t < sb.size ∧
    ∃ off < 8,
      ((d.byteAt (sb.bmapstart * BSIZE + sb.size / 8 - sb.nblocks / 8 + t)) >>> off) % 2 ≠ 0 ∧
      u (sb.bmapstart + 1 + 8 * t + off) = 0

/-- error_check_9 never returns 1 on this input, whatever fuel is allowed:
the run either reports the inode as found or does not terminate. -/
def ec9NeverOne (d : Disk) (sb : Superblock) (n : Nat) : Prop :=
  ∀ fuel, error_check_9 d sb n fuel ≠ some 1

instance (sb : Superblock) (a : Nat) : Decidable (specBadAddr sb a) := by
  unfold specBadAddr
  infer_instance

instance (d : Disk) (sb : Superblock) (nd : Dinode) : Decidable (specBadAddrExists d sb nd) := by
  unfold specBadAddrExists
  infer_instance

instance (d : Disk) (blk : Nat) : Decidable (specDotDotAt d blk) := by
  unfold specDotDotAt
  infer_instance

instance (d : Disk) (sb : Superblock) : Decidable (specRootHasDotDot d sb) := by
  unfold specRootHasDotDot
  infer_instance

instance (d : Disk) (sb : Superblock) (u : InUse) : Decidable (specBitmapViol d sb u) := by
  unfold specBitmapViol
  infer_instance

instance (d : Disk) (sb : Superblock) (u : InUse) : Decidable (ec6Hits d sb u) := by
  unfold ec6Hits
  infer_instance

/-
  Concrete images used to instantiate theorems.  They all use a 64-block
  geometry: superblock fields size 64, nblocks 57, inode table at block 2,
  bitmap at block 3, so bitmap_end is 4 and data blocks are 4..63.  Inode
  record n sits at byte offset 1024 + 64 n; the entry records of block b
  sit at byte offsets 512 b + 16 k; the bitmap word for blocks 8..15 is at
  byte offset 1537.
-/

/-- The all-zero name field. -/
def zeroName : Nat → Nat := fun _ => 0

/-- An empty entry record. -/
def zeroDirent : Dirent := ⟨0, zeroName⟩

/-- A free inode record. -/
def freeInode : Dinode := ⟨0, 0, 0, 0, 0, fun _ => 0⟩

/-- A one-character name with first byte c. -/
def oneName (c : Nat) : Nat → Nat := fun i => if i = 0 then c else 0

/-- A directory inode with a single direct block. -/
def mkDir (blk : Nat) : Dinode := ⟨T_DIR, 0, 0, 1, 0, fun i => if i = 0 then blk else 0⟩

/-- The common superblock of the concrete images, with n inodes. -/
def sbX (n : Nat) : Superblock := ⟨64, 57, n, 0, 0, 2, 3⟩

/-- The all-zero image: every oracle returns zeros. -/
def dz : Disk :=
  ⟨⟨0, 0, 0, 0, 0, 0, 0⟩, fun _ => freeInode, fun _ => zeroDirent, fun _ => 0, fun _ => 0⟩

/-- A two-inode image whose root directory is well formed (entries "." and
".." pointing at inode 1 in block 8) but whose bitmap sweep byte at offset
1544 has bit 5 set, naming block 9 which no inode references. -/
def dRootOnly : Disk :=
  ⟨sbX 2,
   fun off => if off = 1088 then mkDir 8 else freeInode,
   fun off =>
     if off = 4096 then ⟨1, dotName⟩
     else if off = 4112 then ⟨1, dotdotName⟩
     else zeroDirent,
   fun off => if off = 1537 then 255 else 0,
   fun off => if off = 1537 then 32 else 0⟩

/-- A three-inode image whose inode 2 is a device inode with direct block
number 1, which lies below bitmap_end. -/
def dBadDev : Disk :=
  ⟨sbX 3,
   fun off =>
     if off = 1088 then mkDir 8
     else if off = 1152 then ⟨T_DEV, 0, 0, 1, 0, fun i => if i = 0 then 1 else 0⟩
     else freeInode,
   fun off =>
     if off = 4096 then ⟨1, dotName⟩
     else if off = 4112 then ⟨1, dotdotName⟩
     else zeroDirent,
   fun off => if off = 1537 then 255 else 0,
   fun _ => 0⟩

/-- A four-inode image: root (block 8) lists inodes 2 and 3; inode 2 is a
directory with block 9 holding "." and ".."; inode 3 is a directory whose
block 10 starts with an entry naming inode 2.  Inode 2 is therefore named
by three entry records system-wide. -/
def dThreeDirs : Disk :=
  ⟨sbX 4,
   fun off =>
     if off = 1088 then mkDir 8
     else if off = 1152 then mkDir 9
     else if off = 1216 then mkDir 10
     else freeInode,
   fun off =>
     if off = 4096 then ⟨1, dotName⟩
     else if off = 4112 then ⟨1, dotdotName⟩
     else if off = 4128 then ⟨2, oneName 97⟩
     else if off = 4144 then ⟨3, oneName 98⟩
     else if off = 4608 then ⟨2, dotName⟩
     else if off = 4624 then ⟨1, dotdotName⟩
     else if off = 5120 then ⟨2, oneName 122⟩
     else zeroDirent,
   fun off => if off = 1537 then 255 else 0,
   fun _ => 0⟩

/-- A four-inode image: root (block 8) holds the only entry naming the
directory inode 2; inode 3 is another directory with no data blocks, so it
is a candidate parent whose scan never finds inode 2. -/
def dOrphan : Disk :=
  ⟨sbX 4,
   fun off =>
     if off = 1088 then mkDir 8
     else if off = 1152 then mkDir 9
     else if off = 1216 then ⟨T_DIR, 0, 0, 1, 0, fun _ => 0⟩
     else freeInode,
   fun off =>
     if off = 4096 then ⟨1, dotName⟩
     else if off = 4112 then ⟨1, dotdotName⟩
     else if off = 4128 then ⟨2, oneName 97⟩
     else zeroDirent,
   fun _ => 0,
   fun _ => 0⟩

/-- A three-inode image: root (block 8) names the directory inode 2, whose
block 9 holds proper "." and ".." entries; no directory other than the
root and inode 2 exists. -/
def dTwoDirs : Disk :=
  ⟨sbX 3,
   fun off =>
     if off = 1088 then mkDir 8
     else if off = 1152 then mkDir 9
     else freeInode,
   fun off =>
     if off = 4096 then ⟨1, dotName⟩
     else if off = 4112 then ⟨1, dotdotName⟩
     else if off = 4128 then ⟨2, oneName 97⟩
     else if off = 4608 then ⟨2, dotName⟩
     else if off = 4624 then ⟨1, dotdotName⟩
     else zeroDirent,
   fun off => if off = 1537 then 255 else 0,
   fun _ => 0⟩

/-- A three-inode image whose directory inode 2 has a single block 9
holding only a "." entry, so its shape count is 1. -/
def dBadShape : Disk :=
  ⟨sbX 3,
   fun off =>
     if off = 1088 then mkDir 8
     else if off = 1152 then mkDir 9
     else freeInode,
   fun off =>
     if off = 4096 then ⟨1, dotName⟩
     else if off = 4112 then ⟨1, dotdotName⟩
     else if off = 4608 then ⟨2, dotName⟩
     else zeroDirent,
   fun off => if off = 1537 then 255 else 0,
   fun _ => 0⟩

/-- A directory inode with direct block 8 and indirect block 9, used with
the image dShapeInd. -/
def ndShape : Dinode :=
  ⟨T_DIR, 0, 0, 1, 0, fun i => if i = 0 then 8 else if i = 12 then 9 else 0⟩

/-- An image for ndShape: block 8 holds "." (inum 7) and ".."; the
indirect block 9 names block 10, whose first record is a second ".."
entry. -/
def dShapeInd : Disk :=
  ⟨sbX 0,
   fun _ => freeInode,
   fun off =>
     if off = 4096 then ⟨7, dotName⟩
     else if off = 4112 then ⟨1, dotdotName⟩
     else if off = 5120 then ⟨1, dotdotName⟩
     else zeroDirent,
   fun off => if off = 4608 then 10 else 0,
   fun _ => 0⟩

/-- An image whose bitmap byte at offset 1544 has bit 0 set and all bytes
at offsets 1536..1543 zero: by the byte b / 8, bit b mod 8 addressing no
data block of the 64-block geometry is marked, yet the sweep of
error_check_6 reads the byte at 1544. -/
def dBitmapSkew : Disk :=
  ⟨sbX 0, fun _ => freeInode, fun _ => zeroDirent, fun _ => 0,
   fun off => if off = 1544 then 1 else 0⟩

/-- A three-inode image: the root directory and the file inode 2 both list
block 8 as their first direct block. -/
def dShared : Disk :=
  ⟨sbX 3,
   fun off =>
     if off = 1088 then mkDir 8
     else if off = 1152 then ⟨T_FILE, 0, 0, 1, 0, fun i => if i = 0 then 8 else 0⟩
     else freeInode,
   fun off =>
     if off = 4096 then ⟨1, dotName⟩
     else if off = 4112 then ⟨1, dotdotName⟩
     else zeroDirent,
   fun off => if off = 1537 then 255 else 0,
   fun _ => 0⟩

/-- A three-inode image: the file inode 2 has nlink 1, no data blocks, and
no entry record anywhere names it. -/
def dFileBad : Disk :=
  ⟨sbX 3,
   fun off =>
     if off = 1088 then mkDir 8
     else if off = 1152 then ⟨T_FILE, 0, 0, 1, 0, fun _ => 0⟩
     else freeInode,
   fun off =>
     if off = 4096 then ⟨1, dotName⟩
     else if off = 4112 then ⟨1, dotdotName⟩
     else zeroDirent,
   fun off => if off = 1537 then 255 else 0,
   fun _ => 0⟩

/-
  Generic characterizations of the two loop shapes.
-/

/-- A find-style loop returns 1 exactly when some index in its range
satisfies the predicate. -/
theorem findFlag_one_iff (p : Nat → Prop) [DecidablePred p] :
    ∀ k i, findFlag p k i = 1 ↔ ∃ j, i ≤ j ∧ j < i + k ∧ p j := by
  intro k
  induction k with
  | zero =>
    intro i
    constructor
    · intro h
      simp [findFlag] at h
    · rintro ⟨j, h1, h2, _⟩
      omega
  | succ k ih =>
    intro i
    by_cases hp : p i
    · constructor
      · intro _
        exact ⟨i, Nat.le_refl i, by omega, hp⟩
      · intro _
        simp [findFlag, hp]
    · have hstep : findFlag p (k+1) i = findFlag p k (i+1) := by
        simp [findFlag, hp]
      rw [hstep, ih (i+1)]
      constructor
      · rintro ⟨j, h1, h2, h3⟩
        exact ⟨j, by omega, by omega, h3⟩
      · rintro ⟨j, h1, h2, h3⟩
        refine ⟨j, ?_, by omega, h3⟩
        rcases Nat.eq_or_lt_of_le h1 with he | hl
        · subst he
          exact absurd h3 hp
        · omega

/-- A find-style loop returns 0 or 1. -/
theorem findFlag_zero_or_one (p : Nat → Prop) [DecidablePred p] :
    ∀ k i, findFlag p k i = 0 ∨ findFlag p k i = 1 := by
  intro k
  induction k with
  | zero => intro i; left; rfl
  | succ k ih =>
    intro i
    by_cases hp : p i
    · right; simp [findFlag, hp]
    · have hstep : findFlag p (k+1) i = findFlag p k (i+1) := by
        simp [findFlag, hp]
      rw [hstep]
      exact ih (i+1)

/-- An accumulate-style loop whose body adds g i computes the sum of g
over its index range. -/
theorem accGo_spec (f : Nat → Nat → Nat) (g : Nat → Nat)
    (hf : ∀ i acc, f i acc = acc + g i) :
    ∀ k i acc, accGo f k i acc = acc + ∑ t ∈ Finset.range k, g (i + t) := by
  intro k
  induction k with
  | zero => intro i acc; simp [accGo]
  | succ k ih =>
    intro i acc
    have hstep : accGo f (k+1) i acc = accGo f k (i+1) (f i acc) := rfl
    rw [hstep, ih (i+1) (f i acc), hf]
    rw [Finset.sum_range_succ']
    have hc : ∀ t, t ∈ Finset.range k → g (i + 1 + t) = g (i + (t + 1)) := by
      intro t _
      have : i + 1 + t = i + (t + 1) := by omega
      rw [this]
    rw [Finset.sum_congr rfl hc]
    simp [Nat.add_zero]
    omega

/-- The accumulate-loop characterization specialised to start index 0. -/
theorem accGo_spec0 (f : Nat → Nat → Nat) (g : Nat → Nat)
    (hf : ∀ i acc, f i acc = acc + g i) (k acc : Nat) :
    accGo f k 0 acc = acc + ∑ t ∈ Finset.range k, g t := by
  rw [accGo_spec f g hf k 0 acc]
  have hc : ∀ t, t ∈ Finset.range k → g (0 + t) = g t := by
    intro t _
    rw [Nat.zero_add]
  rw [Finset.sum_congr rfl hc]

/-
  Characterizations of the individual checks.
-/

/-- error_check_2 reports exactly the existence of an out-of-range
non-zero address among the address slots and the indirect-block
pointers. -/
theorem ec2_one_iff (d : Disk) (sb : Superblock) (nd : Dinode) :
    error_check_2 d sb nd = 1 ↔ specBadAddrExists d sb nd := by
  have hdir : findFlag
      (fun i => nd.addrs i ≠ 0 ∧ (nd.addrs i < bitmapEnd sb ∨ nd.addrs i > sb.size - 1))
      (NDIRECT + 1) 0 = 1 ↔ ∃ i < NDIRECT + 1, specBadAddr sb (nd.addrs i) := by
    rw [findFlag_one_iff]
    constructor
    · rintro ⟨j, h0, hj, hc⟩
      exact ⟨j, by omega, hc⟩
    · rintro ⟨j, hj, hc⟩
      exact ⟨j, by omega, by omega, hc⟩
  have hindir : findFlag
      (fun j => d.uintAt (nd.addrs NDIRECT * BSIZE + j * 4) ≠ 0 ∧
        (d.uintAt (nd.addrs NDIRECT * BSIZE + j * 4) < bitmapEnd sb ∨
         d.uintAt (nd.addrs NDIRECT * BSIZE + j * 4) > sb.size - 1))
      NINDIRECT 0 = 1 ↔
      ∃ j < NINDIRECT, specBadAddr sb (d.uintAt (nd.addrs NDIRECT * BSIZE + j * 4)) := by
    rw [findFlag_one_iff]
    constructor
    · rintro ⟨j, h0, hj, hc⟩
      exact ⟨j, by omega, hc⟩
    · rintro ⟨j, hj, hc⟩
      exact ⟨j, by omega, by omega, hc⟩
  unfold error_check_2 specBadAddrExists
  split_ifs with hA hB
  · constructor
    · intro _
      exact Or.inl (hdir.mp hA)
    · intro _
      rfl
  · rw [hindir]
    constructor
    · intro h
      exact Or.inr ⟨hB, h⟩
    · rintro (hd | ⟨_, h⟩)
      · exact absurd (hdir.mpr hd) hA
      · exact h
  · constructor
    · intro h
      exact absurd h (by decide)
    · rintro (hd | ⟨hne, _⟩)
      · exact absurd (hdir.mpr hd) hA
      · exact absurd hne hB

/-- error_check_3 passes exactly when the root inode is a directory and
some non-zero direct block of it holds a ".." entry with inum 1. -/
theorem ec3_zero_iff (d : Disk) (sb : Superblock) :
    error_check_3 d sb = 0 ↔
      (readInode d sb 1).type = T_DIR ∧
        ∃ j < NDIRECT, (readInode d sb 1).addrs j ≠ 0 ∧
          specDotDotAt d ((readInode d sb 1).addrs j) := by
  have houter : findFlag
      (fun i => (readInode d sb 1).addrs i ≠ 0 ∧
        findFlag
          (fun k =>
            (d.direntAt ((readInode d sb 1).addrs i * BSIZE + k * direntSize)).inum ≠ 0 ∧
            matchName (d.direntAt ((readInode d sb 1).addrs i * BSIZE + k * direntSize)).name
              dotdotName = true ∧
            (d.direntAt ((readInode d sb 1).addrs i * BSIZE + k * direntSize)).inum = 1)
          32 0 = 1)
      NDIRECT 0 = 1 ↔
      ∃ j < NDIRECT, (readInode d sb 1).addrs j ≠ 0 ∧
        specDotDotAt d ((readInode d sb 1).addrs j) := by
    rw [findFlag_one_iff]
    constructor
    · rintro ⟨j, h0, hj, hz, hin⟩
      rcases (findFlag_one_iff _ _ _).mp hin with ⟨k, k0, hk, hne, hnm, h1⟩
      exact ⟨j, by omega, hz, k, by omega, hnm, h1⟩
    · rintro ⟨j, hj, hz, k, hk, hnm, h1⟩
      refine ⟨j, by omega, by omega, hz, (findFlag_one_iff _ _ _).mpr ?_⟩
      exact ⟨k, by omega, by omega, by omega, hnm, h1⟩
  unfold error_check_3
  split_ifs with ht hf
  · constructor
    · intro h
      exact absurd h (by decide)
    · rintro ⟨h1, _⟩
      exact absurd h1 ht
  · constructor
    · intro _
      exact ⟨of_not_not ht, houter.mp hf⟩
    · intro _
      rfl
  · constructor
    · intro h
      exact absurd h (by decide)
    · rintro ⟨_, hex⟩
      exact absurd (houter.mpr hex) hf

/-- error_check_3 returns 0 or 1. -/
theorem ec3_zero_or_one (d : Disk) (sb : Superblock) :
    error_check_3 d sb = 0 ∨ error_check_3 d sb = 1 := by
  unfold error_check_3
  split_ifs <;> simp

/-- The per-block reference count of the shared scan. -/
theorem countBlock_eq (d : Disk) (blk n acc : Nat) :
    countBlock d blk n acc = acc + specBlockRefs d blk n := by
  unfold countBlock
  rw [accGo_spec0 _
    (fun k => if (d.direntAt (blk * BSIZE + k * direntSize)).inum = n then 1 else 0)
    (by
      intro k a
      by_cases h : (d.direntAt (blk * BSIZE + k * direntSize)).inum = n <;> simp [h])
    32 acc]
  rfl

/-- The counting scan computes the spec-side system-wide reference
count. -/
theorem refScan_eq (d : Disk) (sb : Superblock) (n : Nat) :
    refScan d sb n = specCountRefs d sb n := by
  unfold refScan
  rw [accGo_spec0 _ (fun i => specInodeRefs d sb i n) ?hf sb.ninodes 0]
  · rw [Nat.zero_add]
    rfl
  case hf =>
    intro i acc
    by_cases hdir : (readInode d sb i).type = T_DIR
    · simp only [if_pos hdir]
      rw [accGo_spec0 _
        (fun j => if (readInode d sb i).addrs j ≠ 0 then
          specBlockRefs d ((readInode d sb i).addrs j) n else 0)
        (by
          intro j a
          by_cases hz : (readInode d sb i).addrs j ≠ 0
          · simp only [if_pos hz]
            exact countBlock_eq d _ n a
          · simp [hz])
        NDIRECT acc]
      by_cases hind : (readInode d sb i).addrs NDIRECT ≠ 0
      · simp only [if_pos hind]
        rw [accGo_spec0 _
          (fun j => if d.uintAt ((readInode d sb i).addrs NDIRECT * BSIZE + j * 4) ≠ 0 then
            specBlockRefs d (d.uintAt ((readInode d sb i).addrs NDIRECT * BSIZE + j * 4)) n
            else 0)
          (by
            intro j a
            by_cases hz : d.uintAt ((readInode d sb i).addrs NDIRECT * BSIZE + j * 4) ≠ 0
            · simp only [if_pos hz]
              exact countBlock_eq d _ n a
            · simp [hz])
          NINDIRECT _]
        unfold specInodeRefs
        rw [if_pos hdir, if_pos hind]
        omega
      · simp only [if_neg hind]
        unfold specInodeRefs
        rw [if_pos hdir, if_neg hind]
        omega
    · simp only [if_neg hdir]
      unfold specInodeRefs
      rw [if_neg hdir]
      omega

/-- The per-block shape count of error_check_4. -/
theorem check4Block_eq (d : Disk) (blk n acc : Nat) :
    check4Block d blk n acc = acc + specBlockShape d blk n := by
  unfold check4Block
  rw [accGo_spec0 _
    (fun k =>
      (if matchName (d.direntAt (blk * BSIZE + k * direntSize)).name dotName = true ∧
          (d.direntAt (blk * BSIZE + k * direntSize)).inum = n then 1 else 0) +
      (if matchName (d.direntAt (blk * BSIZE + k * direntSize)).name dotdotName = true
        then 1 else 0))
    (by
      intro k a
      by_cases h1 : matchName (d.direntAt (blk * BSIZE + k * direntSize)).name dotName = true ∧
          (d.direntAt (blk * BSIZE + k * direntSize)).inum = n <;>
        by_cases h2 : matchName (d.direntAt (blk * BSIZE + k * direntSize)).name
            dotdotName = true <;>
        simp [h1, h2])
    32 acc]
  rfl

/-- error_check_4 passes exactly when the shape count over the direct data
blocks is 2. -/
theorem ec4_zero_iff (d : Disk) (nd : Dinode) (n : Nat) :
    error_check_4 d nd n = 0 ↔ specShapeDirect d nd n = 2 := by
  unfold error_check_4
  rw [accGo_spec0 _
    (fun i => if nd.addrs i ≠ 0 then specBlockShape d (nd.addrs i) n else 0)
    (by
      intro i a
      by_cases hz : nd.addrs i ≠ 0
      · simp only [if_pos hz]
        exact check4Block_eq d _ n a
      · simp [hz])
    NDIRECT 0]
  have : (0 : Nat) + ∑ t ∈ Finset.range NDIRECT,
      (fun i => if nd.addrs i ≠ 0 then specBlockShape d (nd.addrs i) n else 0) t =
      specShapeDirect d nd n := by
    rw [Nat.zero_add]
    rfl
  rw [this]
  split_ifs with h
  · constructor
    · intro h10
      exact absurd h10 (by decide)
    · intro h2
      exact absurd h2 h
  · constructor
    · intro _
      exact of_not_not h
    · intro _
      rfl

/-- error_check_11 reports exactly a mismatch between the system-wide
reference count and the stored nlink. -/
theorem ec11_one_iff (d : Disk) (sb : Superblock) (nd : Dinode) (n : Nat) :
    error_check_11 d sb nd n = 1 ↔ specCountRefs d sb n ≠ nd.nlink := by
  unfold error_check_11
  rw [refScan_eq]
  split_ifs with h <;> simp [h]

/-- error_check_12 reports exactly a system-wide reference count different
from 1. -/
theorem ec12_one_iff (d : Disk) (sb : Superblock) (nd : Dinode) (n : Nat) :
    error_check_12 d sb nd n = 1 ↔ specCountRefs d sb n ≠ 1 := by
  unfold error_check_12
  rw [refScan_eq]
  split_ifs with h <;> simp [h]

/-- The inner bit loop of error_check_6 reports exactly when some bit in
its range is set while the matching usage entry is zero. -/
theorem check6Inner_true_iff (bits : Nat) (u : InUse) (cnt : Nat) :
    ∀ m off, check6Inner bits u cnt m off = true ↔
      ∃ r, off ≤ r ∧ r < off + m ∧ (bits >>> r) % 2 ≠ 0 ∧ u (cnt + r) = 0 := by
  intro m
  induction m with
  | zero =>
    intro off
    constructor
    · intro h
      simp [check6Inner] at h
    · rintro ⟨r, h1, h2, _⟩
      omega
  | succ m ih =>
    intro off
    by_cases hp : (bits >>> off) % 2 ≠ 0 ∧ u (cnt + off) = 0
    · constructor
      · intro _
        exact ⟨off, Nat.le_refl off, by omega, hp⟩
      · intro _
        simp only [check6Inner]
        rw [if_pos hp]
    · have hstep : check6Inner bits u cnt (m+1) off = check6Inner bits u cnt m (off+1) := by
        simp only [check6Inner]
        rw [if_neg hp]
      rw [hstep, ih (off+1)]
      constructor
      · rintro ⟨r, h1, h2, h3⟩
        exact ⟨r, by omega, by omega, h3⟩
      · rintro ⟨r, h1, h2, h3⟩
        refine ⟨r, ?_, by omega, h3⟩
        rcases Nat.eq_or_lt_of_le h1 with he | hl
        · subst he
          exact absurd h3 hp
        · omega

/-- The outer loop of error_check_6 reports exactly when some visited
iteration finds a set bit with a zero usage entry, provided the fuel
covers the whole range. -/
theorem check6Outer_one_iff (d : Disk) (sb : Superblock) (u : InUse) (base : Nat) :
    ∀ f i k, sb.size ≤ i + 8 * f →
      (check6Outer d sb u base f i k = 1 ↔
        ∃ t, i + 8 * t < sb.size ∧ ∃ off < 8,
          ((d.byteAt (base + (k + t))) >>> off) % 2 ≠ 0 ∧ u (i + 8 * t + off) = 0) := by
  intro f
  induction f with
  | zero =>
    intro i k hle
    constructor
    · intro h
      simp [check6Outer] at h
    · rintro ⟨t, h1, _⟩
      omega
  | succ f ih =>
    intro i k hle
    by_cases hi : i < sb.size
    · by_cases hin : check6Inner (d.byteAt (base + k)) u i 8 0 = true
      · have hres : check6Outer d sb u base (f+1) i k = 1 := by
          simp [check6Outer, hi, hin]
        rw [hres]
        constructor
        · intro _
          rcases (check6Inner_true_iff _ _ _ 8 0).mp hin with ⟨r, h0, hr, hbit, hu⟩
          refine ⟨0, by omega, r, by omega, ?_, ?_⟩
          · have he : k + 0 = k := by omega
            rw [he]
            exact hbit
          · have he : i + 8 * 0 + r = i + r := by omega
            rw [he]
            exact hu
        · intro _
          rfl
      · have hres : check6Outer d sb u base (f+1) i k =
            check6Outer d sb u base f (i+8) (k+1) := by
          simp [check6Outer, hi, hin]
        rw [hres, ih (i+8) (k+1) (by omega)]
        constructor
        · rintro ⟨t, h1, off, hoff, hbit, hu⟩
          refine ⟨t+1, by omega, off, hoff, ?_, ?_⟩
          · have he : k + (t+1) = (k+1) + t := by omega
            rw [he]
            exact hbit
          · have he : i + 8 * (t+1) + off = i + 8 + 8 * t + off := by omega
            rw [he]
            exact hu
        · rintro ⟨t, h1, off, hoff, hbit, hu⟩
          cases t with
          | zero =>
            exfalso
            apply hin
            apply (check6Inner_true_iff _ _ _ 8 0).mpr
            refine ⟨off, by omega, by omega, ?_, ?_⟩
            · have he : k + 0 = k := by omega
              rw [he] at hbit
              exact hbit
            · have he : i + 8 * 0 + off = i + off := by omega
              rw [he] at hu
              exact hu
          | succ t =>
            refine ⟨t, by omega, off, hoff, ?_, ?_⟩
            · have he : k + (t+1) = (k+1) + t := by omega
              rw [he] at hbit
              exact hbit
            · have he : i + 8 * (t+1) + off = i + 8 + 8 * t + off := by omega
              rw [he] at hu
              exact hu
    · have hres : check6Outer d sb u base (f+1) i k = 0 := by
        simp [check6Outer, hi]
      rw [hres]
      constructor
      · intro h
        exact absurd h (by decide)
      · rintro ⟨t, h1, _⟩
        omega

/-- error_check_6 reports exactly the condition ec6Hits. -/
theorem ec6_one_iff (d : Disk) (sb : Superblock) (u : InUse) :
    error_check_6 d sb u = 1 ↔ ec6Hits d sb u := by
  unfold error_check_6 ec6Hits
  rw [check6Outer_one_iff d sb u _ sb.size (sb.bmapstart + 1) 0 (by omega)]
  constructor
  · rintro ⟨t, h1, off, hoff, hbit, hu⟩
    refine ⟨t, by omega, by omega, off, hoff, ?_, hu⟩
    have he : 0 + t = t := by omega
    rw [he] at hbit
    exact hbit
  · rintro ⟨t, ht, h1, off, hoff, hbit, hu⟩
    refine ⟨t, by omega, off, hoff, ?_, hu⟩
    have he : 0 + t = t := by omega
    rw [he]
    exact hbit

/-- The flag of the loop of error_check_7 is 0 or 1. -/
theorem check7Go_zero_or_one (nd : Dinode) :
    ∀ k i u, (check7Go nd k i u).1 = 0 ∨ (check7Go nd k i u).1 = 1 := by
  intro k
  induction k with
  | zero => intro i u; exact Or.inl rfl
  | succ k ih =>
    intro i u
    simp only [check7Go]
    split_ifs
    · exact Or.inr rfl
    · exact ih (i+1) _
    · exact ih (i+1) _

/-- The usage marks only grow through the loop of error_check_7. -/
theorem check7Go_mono (nd : Dinode) :
    ∀ k i u x, u x ≠ 0 → (check7Go nd k i u).2 x ≠ 0 := by
  intro k
  induction k with
  | zero => intro i u x hx; exact hx
  | succ k ih =>
    intro i u x hx
    by_cases h1 : nd.addrs i ≠ 0
    · by_cases h2 : u (nd.addrs i) ≠ 0
      · simp only [check7Go, if_pos h1, if_pos h2]
        exact hx
      · simp only [check7Go, if_pos h1, if_neg h2]
        apply ih
        by_cases hb : x = nd.addrs i
        · simp [hb]
        · simp only [if_neg hb]
          exact hx
    · simp only [check7Go, if_neg h1]
      exact ih _ _ _ hx

/-- When the loop of error_check_7 passes, every non-zero address slot in
its range is marked in the resulting usage array. -/
theorem check7Go_pass_marks (nd : Dinode) :
    ∀ k i u, (check7Go nd k i u).1 = 0 →
      ∀ j, i ≤ j → j < i + k → nd.addrs j ≠ 0 →
        (check7Go nd k i u).2 (nd.addrs j) ≠ 0 := by
  intro k
  induction k with
  | zero =>
    intro i u _ j h1 h2 _
    omega
  | succ k ih =>
    intro i u hp j h1 h2 hz
    by_cases ha : nd.addrs i ≠ 0
    · by_cases hu : u (nd.addrs i) ≠ 0
      · exfalso
        have hres : (check7Go nd (k+1) i u).1 = 1 := by
          simp [check7Go, ha, hu]
        rw [hres] at hp
        exact absurd hp (by decide)
      · have hstep : check7Go nd (k+1) i u =
            check7Go nd k (i+1) (fun b => if b = nd.addrs i then 1 else u b) := by
          simp [check7Go, ha, hu]
        rw [hstep] at hp ⊢
        rcases Nat.eq_or_lt_of_le h1 with he | hl
        · subst he
          apply check7Go_mono
          simp
        · exact ih (i+1) _ hp j (by omega) (by omega) hz
    · have hstep : check7Go nd (k+1) i u = check7Go nd k (i+1) u := by
        simp [check7Go, ha]
      rw [hstep] at hp ⊢
      rcases Nat.eq_or_lt_of_le h1 with he | hl
      · subst he
        exact absurd hz ha
      · exact ih (i+1) u hp j (by omega) (by omega) hz

/-- When some non-zero address slot in range is already marked, the loop
of error_check_7 reports a collision. -/
theorem check7Go_hit (nd : Dinode) :
    ∀ k i u, (∃ j, i ≤ j ∧ j < i + k ∧ nd.addrs j ≠ 0 ∧ u (nd.addrs j) ≠ 0) →
      (check7Go nd k i u).1 = 1 := by
  intro k
  induction k with
  | zero =>
    rintro i u ⟨j, h1, h2, _⟩
    omega
  | succ k ih =>
    rintro i u ⟨j, h1, h2, hz, hu⟩
    by_cases ha : nd.addrs i ≠ 0
    · by_cases hui : u (nd.addrs i) ≠ 0
      · simp [check7Go, ha, hui]
      · have hstep : check7Go nd (k+1) i u =
            check7Go nd k (i+1) (fun b => if b = nd.addrs i then 1 else u b) := by
          simp [check7Go, ha, hui]
        rw [hstep]
        apply ih
        have hji : j ≠ i := by
          intro he
          subst he
          exact hui hu
        refine ⟨j, by omega, by omega, hz, ?_⟩
        by_cases hb : nd.addrs j = nd.addrs i
        · simp [hb]
        · simp only [if_neg hb]
          exact hu
    · have ha0 : nd.addrs i = 0 := not_ne_iff.mp ha
      have hstep : check7Go nd (k+1) i u = check7Go nd k (i+1) u := by
        simp [check7Go, ha]
      rw [hstep]
      apply ih
      have hji : j ≠ i := by
        intro he
        subst he
        exact hz ha0
      exact ⟨j, by omega, by omega, hz, hu⟩

/-- The usage marks only grow through the loop of error_check_8. -/
theorem check8Go_mono (d : Disk) (nd : Dinode) :
    ∀ k j u x, u x ≠ 0 → (check8Go d nd k j u).2 x ≠ 0 := by
  intro k
  induction k with
  | zero => intro j u x hx; exact hx
  | succ k ih =>
    intro j u x hx
    by_cases h1 : d.uintAt (nd.addrs NDIRECT * BSIZE + j * 4) ≠ 0
    · by_cases h2 : u (d.uintAt (nd.addrs NDIRECT * BSIZE + j * 4)) = 1
      · simp only [check8Go, if_pos h1, if_pos h2]
        exact hx
      · simp only [check8Go, if_pos h1, if_neg h2]
        apply ih
        by_cases hb : x = d.uintAt (nd.addrs NDIRECT * BSIZE + j * 4)
        · simp [hb]
        · simp only [if_neg hb]
          exact hx
    · simp only [check8Go, if_neg h1]
      exact ih _ _ _ hx

/-- The usage marks only grow through error_check_7. -/
theorem ec7_mono (nd : Dinode) (u : InUse) (x : Nat) (hx : u x ≠ 0) :
    (error_check_7 nd u).2 x ≠ 0 :=
  check7Go_mono nd _ _ u x hx

/-- A passing error_check_7 marks every non-zero address slot. -/
theorem ec7_pass_marks (nd : Dinode) (u : InUse) (hp : (error_check_7 nd u).1 = 0)
    (j : Nat) (hj : j < NDIRECT + 1) (hz : nd.addrs j ≠ 0) :
    (error_check_7 nd u).2 (nd.addrs j) ≠ 0 :=
  check7Go_pass_marks nd _ _ u hp j (by omega) (by omega) hz

/-- error_check_7 reports a collision when some non-zero address slot is
already marked. -/
theorem ec7_hit (nd : Dinode) (u : InUse)
    (h : ∃ j < NDIRECT + 1, nd.addrs j ≠ 0 ∧ u (nd.addrs j) ≠ 0) :
    (error_check_7 nd u).1 = 1 := by
  rcases h with ⟨j, hj, hz, hu⟩
  exact check7Go_hit nd _ _ u ⟨j, by omega, by omega, hz, hu⟩

/-- The usage marks only grow through error_check_8. -/
theorem ec8_mono (d : Disk) (nd : Dinode) (u : InUse) (x : Nat) (hx : u x ≠ 0) :
    (error_check_8 d nd u).2 x ≠ 0 := by
  unfold error_check_8
  split_ifs with h
  · exact check8Go_mono d nd _ _ u x hx
  · exact hx

/-- The directory checks never change the usage array and can only emit
the four directory diagnostics. -/
theorem dirChecks_cases (d : Disk) (sb : Superblock) (u : InUse) (n fuel : Nat) (nd : Dinode) :
    dirChecks d sb u n fuel nd = none ∨
    ∃ m, dirChecks d sb u n fuel nd = some (m, u) ∧
      (m = none ∨ m = some msgDirFmt ∨ m = some msgNotFound ∨ m = some msgDirDup ∨
        m = some msgRefFree) := by
  unfold dirChecks
  by_cases h4 : error_check_4 d nd n = 1
  · rw [if_pos h4]
    exact Or.inr ⟨some msgDirFmt, rfl, Or.inr (Or.inl rfl)⟩
  · rw [if_neg h4]
    by_cases hn : n ≠ 1
    · rw [if_pos hn]
      split
      · exact Or.inl rfl
      · rename_i r9 hv
        by_cases h9 : r9 = 1
        · rw [if_pos h9]
          exact Or.inr ⟨some msgNotFound, rfl, Or.inr (Or.inr (Or.inl rfl))⟩
        · rw [if_neg h9]
          by_cases h12 : error_check_12 d sb nd n = 1
          · rw [if_pos h12]
            exact Or.inr ⟨some msgDirDup, rfl, Or.inr (Or.inr (Or.inr (Or.inl rfl)))⟩
          · rw [if_neg h12]
            by_cases h10 : error_check_10 d sb nd = 1
            · rw [if_pos h10]
              exact Or.inr ⟨some msgRefFree, rfl, Or.inr (Or.inr (Or.inr (Or.inr rfl)))⟩
            · rw [if_neg h10]
              exact Or.inr ⟨none, rfl, Or.inl rfl⟩
    · rw [if_neg hn]
      by_cases h10 : error_check_10 d sb nd = 1
      · rw [if_pos h10]
        exact Or.inr ⟨some msgRefFree, rfl, Or.inr (Or.inr (Or.inr (Or.inr rfl)))⟩
      · rw [if_neg h10]
        exact Or.inr ⟨none, rfl, Or.inl rfl⟩

/-- The type-dispatched checks never change the usage array and can only
emit the directory diagnostics or the file reference-count diagnostic. -/
theorem typeChecks_cases (d : Disk) (sb : Superblock) (u : InUse) (n fuel : Nat) (nd : Dinode) :
    typeChecks d sb u n fuel nd = none ∨
    ∃ m, typeChecks d sb u n fuel nd = some (m, u) ∧
      (m = none ∨ m = some msgDirFmt ∨ m = some msgNotFound ∨ m = some msgDirDup ∨
        m = some msgRefFree ∨ m = some msgRefCnt) := by
  unfold typeChecks
  split_ifs with hdir hfile h11
  · rcases dirChecks_cases d sb u n fuel nd with h | ⟨m, hm, hc⟩
    · exact Or.inl h
    · refine Or.inr ⟨m, hm, ?_⟩
      exact hc.imp id (Or.imp id (Or.imp id (Or.imp id Or.inl)))
  · exact Or.inr ⟨some msgRefCnt, rfl, Or.inr (Or.inr (Or.inr (Or.inr (Or.inr rfl))))⟩
  · exact Or.inr ⟨none, rfl, Or.inl rfl⟩
  · exact Or.inr ⟨none, rfl, Or.inl rfl⟩

/-- The usage marks only grow through one step of the inode loop. -/
theorem inodeStep_mono (d : Disk) (sb : Superblock) (u : InUse) (n fuel : Nat)
    (m : Option String) (u2 : InUse) (h : inodeStep d sb u n fuel = some (m, u2)) :
    ∀ x, u x ≠ 0 → u2 x ≠ 0 := by
  intro x hx
  simp only [inodeStep] at h
  split_ifs at h with h1 h0 h2 h5 h7 h8
  · injection h with hp
    injection hp with hm hu
    rw [← hu]
    exact hx
  · injection h with hp
    injection hp with hm hu
    rw [← hu]
    exact hx
  · injection h with hp
    injection hp with hm hu
    rw [← hu]
    exact hx
  · injection h with hp
    injection hp with hm hu
    rw [← hu]
    exact ec7_mono _ _ _ hx
  · injection h with hp
    injection hp with hm hu
    rw [← hu]
    exact ec8_mono _ _ _ _ (ec7_mono _ _ _ hx)
  · rcases typeChecks_cases d sb ((error_check_8 d (readInode d sb n)
        (error_check_7 (readInode d sb n) u).2).2) n fuel (readInode d sb n) with hc | ⟨m2, hm2, _⟩
    · rw [hc] at h
      exact absurd h (by simp)
    · rw [hm2] at h
      injection h with hp
      injection hp with hm hu
      rw [← hu]
      exact ec8_mono _ _ _ _ (ec7_mono _ _ _ hx)
  · injection h with hp
    injection hp with hm hu
    rw [← hu]
    exact hx

/-- A passing step of the inode loop on a non-free inode marks every
non-zero address slot of that inode in the resulting usage array. -/
theorem inodeStep_pass_marks (d : Disk) (sb : Superblock) (u : InUse) (n fuel : Nat)
    (u2 : InUse) (h : inodeStep d sb u n fuel = some (none, u2))
    (ht : (readInode d sb n).type ≠ 0) :
    ∀ j < NDIRECT + 1, (readInode d sb n).addrs j ≠ 0 →
      u2 ((readInode d sb n).addrs j) ≠ 0 := by
  intro j hj hz
  simp only [inodeStep] at h
  split_ifs at h with h1 h0 h2 h5 h7 h8
  · injection h with hp
    injection hp with hm hu
    exact absurd hm (by simp)
  · injection h with hp
    injection hp with hm hu
    exact absurd hm (by simp)
  · injection h with hp
    injection hp with hm hu
    exact absurd hm (by simp)
  · injection h with hp
    injection hp with hm hu
    exact absurd hm (by simp)
  · injection h with hp
    injection hp with hm hu
    exact absurd hm (by simp)
  · have h7z : (error_check_7 (readInode d sb n) u).1 = 0 := by
      rcases check7Go_zero_or_one (readInode d sb n) (NDIRECT + 1) 0 u with hv | hv
      · exact hv
      · exact absurd hv h5
    have hmark := ec7_pass_marks (readInode d sb n) u h7z j hj hz
    have hmark8 := ec8_mono d (readInode d sb n) _ _ hmark
    rcases typeChecks_cases d sb ((error_check_8 d (readInode d sb n)
        (error_check_7 (readInode d sb n) u).2).2) n fuel (readInode d sb n) with hc | ⟨m2, hm2, _⟩
    · rw [hc] at h
      exact absurd h (by simp)
    · rw [hm2] at h
      injection h with hp
      injection hp with hm0 hu0
      exact hu0 ▸ hmark8

/-- A free inode passes its step untouched: the step of the loop returns
no diagnostic and leaves the usage array unchanged. -/
theorem inodeStep_free (d : Disk) (sb : Superblock) (u : InUse) (n fuel : Nat)
    (ht : (readInode d sb n).type = 0) :
    inodeStep d sb u n fuel = some (none, u) := by
  unfold inodeStep
  have h1 : error_check_1 (readInode d sb n) = 0 := by
    unfold error_check_1
    rw [if_neg]
    intro hcon
    exact hcon.1 ht
  rw [h1]
  rw [if_neg (by decide : ¬(0 : Nat) = 1), if_neg (by simpa using ht)]

/-- Decomposition of the inode loop: running m + k inodes is running m,
then k more from where that stopped. -/
theorem scanFrom_split (d : Disk) (sb : Superblock) (fuel : Nat) :
    ∀ m k i u,
      scanFrom d sb fuel i (m + k) u =
        match scanFrom d sb fuel i m u with
        | none => none
        | some (some e, st) => some (some e, st)
        | some (none, st) => scanFrom d sb fuel (i + m) k st := by
  intro m
  induction m with
  | zero =>
    intro k i u
    simp [scanFrom, Nat.zero_add, Nat.add_zero]
  | succ m ih =>
    intro k i u
    have he : m + 1 + k = (m + k) + 1 := by omega
    rw [he]
    cases hstep : inodeStep d sb u i fuel with
    | none =>
      simp only [scanFrom, hstep]
    | some p =>
      rcases p with ⟨msg, u2⟩
      cases msg with
      | some s =>
        simp only [scanFrom, hstep]
      | none =>
        simp only [scanFrom, hstep]
        rw [ih k (i+1) u2]
        have he2 : i + 1 + m = i + (m + 1) := by omega
        rw [he2]

/-- The usage marks only grow through the inode loop. -/
theorem scanFrom_mono (d : Disk) (sb : Superblock) (fuel : Nat) :
    ∀ k i u r st, scanFrom d sb fuel i k u = some (r, st) →
      ∀ x, u x ≠ 0 → st x ≠ 0 := by
  intro k
  induction k with
  | zero =>
    intro i u r st h x hx
    injection h with hp
    injection hp with h1 h2
    exact h2 ▸ hx
  | succ k ih =>
    intro i u r st h x hx
    cases hstep : inodeStep d sb u i fuel with
    | none =>
      simp only [scanFrom, hstep] at h
      exact absurd h (by simp)
    | some p =>
      rcases p with ⟨msg, u2⟩
      cases msg with
      | some s =>
        simp only [scanFrom, hstep] at h
        injection h with hp
        injection hp with h1 h2
        exact h2 ▸ inodeStep_mono d sb u i fuel _ _ hstep x hx
      | none =>
        simp only [scanFrom, hstep] at h
        exact ih (i+1) u2 r st h x (inodeStep_mono d sb u i fuel _ _ hstep x hx)

/-- If the inode loop passes the first b inodes and a < b is a non-free
inode, then every non-zero address slot of inode a is marked in the
resulting usage array. -/
theorem scanFrom_marks (d : Disk) (sb : Superblock) (fuel : Nat) :
    ∀ k i u st, scanFrom d sb fuel i k u = some (none, st) →
      ∀ a, i ≤ a → a < i + k → (readInode d sb a).type ≠ 0 →
        ∀ j < NDIRECT + 1, (readInode d sb a).addrs j ≠ 0 →
          st ((readInode d sb a).addrs j) ≠ 0 := by
  intro k
  induction k with
  | zero =>
    intro i u st _ a h1 h2
    omega
  | succ k ih =>
    intro i u st h a h1 h2 ht j hj hz
    cases hstep : inodeStep d sb u i fuel with
    | none =>
      simp only [scanFrom, hstep] at h
      exact absurd h (by simp)
    | some p =>
      rcases p with ⟨msg, u2⟩
      cases msg with
      | some s =>
        simp only [scanFrom, hstep] at h
        exact absurd h (by simp)
      | none =>
        simp only [scanFrom, hstep] at h
        rcases Nat.eq_or_lt_of_le h1 with he | hl
        · subst he
          have hm := inodeStep_pass_marks d sb u i fuel u2 hstep ht j hj hz
          exact scanFrom_mono d sb fuel k (i+1) u2 none st h _ hm
        · exact ih (i+1) u2 st h a (by omega) (by omega) ht j hj hz

/-- When the direct-block loop of error_check_9 returns a value, it is 0
and the first entry record of block addrs j of the candidate matches the
searched inode number. -/
theorem ec9Inner_inl (d : Disk) (tmp : Dinode) (inode_num : Nat) :
    ∀ fuel i j r, ec9Inner d tmp inode_num fuel i j = some (Sum.inl r) →
      r = 0 ∧ tmp.addrs j ≠ 0 ∧ (d.direntAt (tmp.addrs j * BSIZE)).inum = inode_num := by
  intro fuel
  induction fuel with
  | zero =>
    intro i j r h
    exact absurd h (by simp [ec9Inner])
  | succ fuel ih =>
    intro i j r h
    simp only [ec9Inner] at h
    split_ifs at h with hj hz hm
    · injection h with hp
      injection hp with hr
      exact ⟨hr.symm, hz, hm⟩
    · exact ih (i+1) j r h
    · exact ih (i+1) j r h
    · exact absurd h (by simp)

/-- The direct-block loop of error_check_9, entered with inner index 0,
never exits normally: j stays 0 while the loop increments i. -/
theorem ec9Inner_ne_inr (d : Disk) (tmp : Dinode) (inode_num : Nat) :
    ∀ fuel i i2, ec9Inner d tmp inode_num fuel i 0 ≠ some (Sum.inr i2) := by
  intro fuel
  induction fuel with
  | zero =>
    intro i i2 h
    exact absurd h (by simp [ec9Inner])
  | succ fuel ih =>
    intro i i2 h
    simp only [ec9Inner] at h
    split_ifs at h with hj hz hm
    · exact absurd h (by simp)
    · exact ih (i+1) i2 h
    · exact ih (i+1) i2 h
    · exact absurd hj (by decide)

/-- Whenever error_check_9 reports the inode as found, some candidate
parent directory has a non-zero block addrs 0 whose first entry record
names the inode: entry records after the first of a block never make an
inode found. -/
theorem ec9Go_zero_src (d : Disk) (sb : Superblock) (inode_num : Nat) :
    ∀ fuel i, ec9Go d sb inode_num fuel i = some 0 →
      ∃ c, i ≤ c ∧ c < sb.ninodes ∧
        (readInode d sb c).type = T_DIR ∧ inode_num ≠ c ∧ c ≠ 1 ∧
        (readInode d sb c).addrs 0 ≠ 0 ∧
        (d.direntAt ((readInode d sb c).addrs 0 * BSIZE)).inum = inode_num := by
  intro fuel
  induction fuel with
  | zero =>
    intro i h
    exact absurd h (by simp [ec9Go])
  | succ fuel ih =>
    intro i h
    simp only [ec9Go] at h
    by_cases hi : i < sb.ninodes
    · rw [if_pos hi] at h
      by_cases hcnd : (readInode d sb i).type = T_DIR ∧ inode_num ≠ i ∧ i ≠ 1
      · rw [if_pos hcnd] at h
        cases hv : ec9Inner d (readInode d sb i) inode_num fuel i 0 with
        | none =>
          rw [hv] at h
          exact absurd h (by simp)
        | some s =>
          rw [hv] at h
          cases s with
          | inl r =>
            rcases ec9Inner_inl d (readInode d sb i) inode_num fuel i 0 r hv with ⟨_, hz, hm⟩
            exact ⟨i, Nat.le_refl i, hi, hcnd.1, hcnd.2.1, hcnd.2.2, hz, hm⟩
          | inr i2 =>
            exact absurd hv (ec9Inner_ne_inr d (readInode d sb i) inode_num fuel i i2)
      · rw [if_neg hcnd] at h
        rcases ih (i+1) h with ⟨c, h1, hrest⟩
        exact ⟨c, by omega, hrest⟩
    · rw [if_neg hi] at h
      exact absurd h (by simp)

/-- Whenever error_check_9 returns 1, no candidate parent directory
exists at or beyond the scanned index. -/
theorem ec9Go_one_no_cand (d : Disk) (sb : Superblock) (inode_num : Nat) :
    ∀ fuel i, ec9Go d sb inode_num fuel i = some 1 →
      ∀ c, i ≤ c → c < sb.ninodes →
        ¬((readInode d sb c).type = T_DIR ∧ inode_num ≠ c ∧ c ≠ 1) := by
  intro fuel
  induction fuel with
  | zero =>
    intro i h
    exact absurd h (by simp [ec9Go])
  | succ fuel ih =>
    intro i h c hic hc hcand
    simp only [ec9Go] at h
    by_cases hi : i < sb.ninodes
    · rw [if_pos hi] at h
      by_cases hcnd : (readInode d sb i).type = T_DIR ∧ inode_num ≠ i ∧ i ≠ 1
      · rw [if_pos hcnd] at h
        cases hv : ec9Inner d (readInode d sb i) inode_num fuel i 0 with
        | none =>
          rw [hv] at h
          exact absurd h (by simp)
        | some s =>
          rw [hv] at h
          cases s with
          | inl r =>
            rcases ec9Inner_inl d (readInode d sb i) inode_num fuel i 0 r hv with ⟨hr, _, _⟩
            subst hr
            exact absurd h (by simp)
          | inr i2 =>
            exact absurd hv (ec9Inner_ne_inr d (readInode d sb i) inode_num fuel i i2)
      · rw [if_neg hcnd] at h
        rcases Nat.eq_or_lt_of_le hic with he | hl
        · subst he
          exact hcnd hcand
        · exact ih (i+1) h c (by omega) hc hcand
    · exact absurd hc (by omega)

/-- When no candidate parent directory exists, error_check_9 returns 1
once the fuel covers the scan of all inodes. -/
theorem ec9Go_no_cand_one (d : Disk) (sb : Superblock) (inode_num : Nat) :
    ∀ fuel i,
      (∀ c, i ≤ c → c < sb.ninodes →
        ¬((readInode d sb c).type = T_DIR ∧ inode_num ≠ c ∧ c ≠ 1)) →
      i ≤ sb.ninodes → sb.ninodes + 1 ≤ fuel + i →
      ec9Go d sb inode_num fuel i = some 1 := by
  intro fuel
  induction fuel with
  | zero =>
    intro i _ hle hf
    omega
  | succ fuel ih =>
    intro i hnc hle hf
    simp only [ec9Go]
    by_cases hi : i < sb.ninodes
    · rw [if_pos hi]
      rw [if_neg (hnc i (Nat.le_refl i) hi)]
      exact ih (i+1) (fun c h1 h2 => hnc c (by omega) h2) (by omega) (by omega)
    · rw [if_neg hi]

/-- Projecting the message out of a present step result. -/
theorem mapFst_some_eq (m1 m2 : Option String) (t : InUse)
    (h : (some (m1, t) : Option (Option String × InUse)).map Prod.fst = some m2) :
    m1 = m2 := by
  simp only [Option.map_some'] at h
  injection h

/-- Every diagnostic an inode step can emit is one of the ten per-inode
diagnostics; in particular it is never the bitmap-sweep diagnostic. -/
theorem inodeStep_msg_cases (d : Disk) (sb : Superblock) (u : InUse) (n fuel : Nat)
    (m : String) (u2 : InUse) (h : inodeStep d sb u n fuel = some (some m, u2)) :
    m = msgBadInode ∨ m = msgBadIndirect ∨ m = msgBitmapFree ∨ m = msgDupDirect ∨
    m = msgDupIndirect ∨ m = msgDirFmt ∨ m = msgNotFound ∨ m = msgDirDup ∨
    m = msgRefFree ∨ m = msgRefCnt := by
  simp only [inodeStep] at h
  split_ifs at h with h1 h0 h2 h5 h7 h8
  all_goals try
    (injection h with hp
     injection hp with hm hu
     injection hm with hm2
     subst hm2
     simp)
  · rcases typeChecks_cases d sb ((error_check_8 d (readInode d sb n)
        (error_check_7 (readInode d sb n) u).2).2) n fuel (readInode d sb n) with hc | ⟨m2, hm2, hd⟩
    · rw [hc] at h
      exact absurd h (by simp)
    · rw [hm2] at h
      injection h with hp
      injection hp with hm hu
      rcases hd with he | he | he | he | he | he
      · rw [he] at hm
        exact absurd hm (by simp)
      all_goals
        (rw [he] at hm
         injection hm with hm3
         subst hm3
         simp)
  · injection h with hp
    injection hp with hm hu
    exact absurd hm (by simp)

/-- Every diagnostic the inode loop can abort with is one of the ten
per-inode diagnostics. -/
theorem scanFrom_abort_msg (d : Disk) (sb : Superblock) (fuel : Nat) :
    ∀ k i u idx m st, scanFrom d sb fuel i k u = some (some (idx, m), st) →
      m = msgBadInode ∨ m = msgBadIndirect ∨ m = msgBitmapFree ∨ m = msgDupDirect ∨
      m = msgDupIndirect ∨ m = msgDirFmt ∨ m = msgNotFound ∨ m = msgDirDup ∨
      m = msgRefFree ∨ m = msgRefCnt := by
  intro k
  induction k with
  | zero =>
    intro i u idx m st h
    exact absurd h (by simp [scanFrom])
  | succ k ih =>
    intro i u idx m st h
    cases hstep : inodeStep d sb u i fuel with
    | none =>
      simp only [scanFrom, hstep] at h
      exact absurd h (by simp)
    | some p =>
      rcases p with ⟨msg, u2⟩
      cases msg with
      | some s =>
        simp only [scanFrom, hstep] at h
        injection h with hp
        injection hp with hm hu
        injection hm with hm2
        injection hm2 with hidx hs
        exact hs ▸ inodeStep_msg_cases d sb u i fuel s u2 hstep
      | none =>
        simp only [scanFrom, hstep] at h
        exact ih (i+1) u2 idx m st h

/-
  The claims.
-/

/-- Claim C1: for every non-free inode, the address-range check (check 2)
reports a violation exactly when some non-zero block address among the 12
direct pointers, the indirect pointer itself, or the NINDIRECT pointers
stored inside the indirect block is strictly below bitmap_end or strictly
above total_blocks - 1; on violation the run aborts with exactly the
diagnostic "bad indirect address in inode". -/
theorem claim_C1 (d : Disk) (sb : Superblock) (nd : Dinode) (u : InUse) (n fuel : Nat) :
    (error_check_2 d sb nd = 1 ↔ specBadAddrExists d sb nd) ∧
    ((readInode d sb n).type ≠ 0 → error_check_1 (readInode d sb n) = 0 →
      (stepMsg d sb u n fuel = some (some msgBadIndirect) ↔
        specBadAddrExists d sb (readInode d sb n))) := by
  refine ⟨ec2_one_iff d sb nd, ?_⟩
  intro ht h1
  simp only [stepMsg, inodeStep]
  rw [h1, if_neg (by decide : ¬(0 : Nat) = 1), if_pos ht]
  by_cases h2 : error_check_2 d sb (readInode d sb n) = 1
  · rw [if_pos h2]
    constructor
    · intro _
      exact (ec2_one_iff d sb (readInode d sb n)).mp h2
    · intro _
      rfl
  · rw [if_neg h2]
    constructor
    · intro hmsg
      exfalso
      by_cases h5 : error_check_5 d sb (readInode d sb n) = 1
      · rw [if_pos h5] at hmsg
        exact absurd (mapFst_some_eq _ _ _ hmsg) (by decide)
      · rw [if_neg h5] at hmsg
        by_cases h7 : (error_check_7 (readInode d sb n) u).1 = 1
        · rw [if_pos h7] at hmsg
          exact absurd (mapFst_some_eq _ _ _ hmsg) (by decide)
        · rw [if_neg h7] at hmsg
          by_cases h8 : (error_check_8 d (readInode d sb n)
              (error_check_7 (readInode d sb n) u).2).1 = 1
          · rw [if_pos h8] at hmsg
            exact absurd (mapFst_some_eq _ _ _ hmsg) (by decide)
          · rw [if_neg h8] at hmsg
            rcases typeChecks_cases d sb ((error_check_8 d (readInode d sb n)
                (error_check_7 (readInode d sb n) u).2).2) n fuel (readInode d sb n) with
              hc | ⟨m2, hm2, hd⟩
            · rw [hc] at hmsg
              exact absurd hmsg (by simp)
            · rw [hm2] at hmsg
              rcases hd with he | he | he | he | he | he <;> rw [he] at hmsg <;>
                exact absurd (mapFst_some_eq _ _ _ hmsg) (by decide)
    · intro hs
      exact absurd ((ec2_one_iff d sb (readInode d sb n)).mpr hs) h2

/-- Claim C1 witness: the image dBadDev holds a device inode 2 whose first
direct pointer is 1, below bitmap_end; its step aborts with the
bad-indirect-address diagnostic. -/
theorem claim_C1_witness :
    ((readInode dBadDev (sbX 3) 2).type ≠ 0 ∧ error_check_1 (readInode dBadDev (sbX 3) 2) = 0) ∧
    stepMsg dBadDev (sbX 3) u0 2 1 = some (some msgBadIndirect) := by
  refine ⟨⟨by decide, by decide⟩, ?_⟩
  exact ((claim_C1 dBadDev (sbX 3) (readInode dBadDev (sbX 3) 2) u0 2 1).2
    (by decide) (by decide)).mpr (by decide)

/-- Claim C3: the inode-reachability check (check 9) reports a non-root
directory inode as found only when its inode number appears in the first
directory-entry record of block addrs 0 of some candidate parent
directory: entry records after the first of a block are never examined,
because the inner loop of the source increments the outer inode index
instead of its own index. -/
theorem claim_C3 (d : Disk) (sb : Superblock) (n fuel : Nat)
    (h : error_check_9 d sb n fuel = some 0) :
    ∃ c < sb.ninodes, (readInode d sb c).type = T_DIR ∧ n ≠ c ∧ c ≠ 1 ∧
      (readInode d sb c).addrs 0 ≠ 0 ∧
      (d.direntAt ((readInode d sb c).addrs 0 * BSIZE)).inum = n := by
  rcases ec9Go_zero_src d sb n fuel 0 h with ⟨c, _, hc, hrest⟩
  exact ⟨c, hc, hrest⟩

/-- Claim C3 witness: on the image dThreeDirs, check 9 for inode 2 returns
found, and indeed the first entry record of block addrs 0 of the candidate
directory inode 3 names inode 2. -/
theorem claim_C3_witness :
    error_check_9 dThreeDirs (sbX 4) 2 20 = some 0 ∧
    ∃ c < (sbX 4).ninodes, (readInode dThreeDirs (sbX 4) c).type = T_DIR ∧ 2 ≠ c ∧ c ≠ 1 ∧
      (readInode dThreeDirs (sbX 4) c).addrs 0 ≠ 0 ∧
      (dThreeDirs.direntAt ((readInode dThreeDirs (sbX 4) c).addrs 0 * BSIZE)).inum = 2 :=
  ⟨by decide, claim_C3 dThreeDirs (sbX 4) 2 20 (by decide)⟩

/-- Claim C5: the root-existence check (check 3) runs once, before any
inode of the scan loop: when inode 1 is not a directory, or no entry named
".." with inum 1 exists among the entries of the root directory, the
program aborts with exactly "root directory does not exist" and exit
status 1; the conclusion holds for every fuel value, so no per-inode check
(in particular no run of check 9) contributes to the outcome. -/
theorem claim_C5 (d : Disk) (fuel : Nat)
    (h : (readInode d d.sb 1).type ≠ T_DIR ∨ ¬ specRootHasDotDot d d.sb) :
    runMain d fuel = some (1, some msgRoot) := by
  have h3 : error_check_3 d d.sb = 1 := by
    rcases ec3_zero_or_one d d.sb with hz | ho
    · exfalso
      rcases (ec3_zero_iff d d.sb).mp hz with ⟨htd, j, hj, hnz, hdd⟩
      rcases h with hne | hno
      · exact hne htd
      · exact hno (Or.inl ⟨j, hj, hnz, hdd⟩)
    · exact ho
  unfold runMain
  rw [if_pos h3]

/-- Claim C5 witness: on the all-zero image the root inode is free, so the
run aborts with the root diagnostic even with zero fuel. -/
theorem claim_C5_witness :
    ((readInode dz dz.sb 1).type ≠ T_DIR ∨ ¬ specRootHasDotDot dz dz.sb) ∧
    runMain dz 0 = some (1, some msgRoot) :=
  ⟨Or.inl (by decide), claim_C5 dz 0 (Or.inl (by decide))⟩

/-- Claim C9: processing an inode of type Free performs none of the
address, bitmap, duplication, directory or file checks: the step returns
no diagnostic and leaves the usage array unchanged. -/
theorem claim_C9 (d : Disk) (sb : Superblock) (u : InUse) (n fuel : Nat)
    (ht : (readInode d sb n).type = 0) :
    inodeStep d sb u n fuel = some (none, u) :=
  inodeStep_free d sb u n fuel ht

/-- Claim C9 witness: inode 0 of the all-zero image is free and its step
passes with the usage array untouched. -/
theorem claim_C9_witness : inodeStep dz dz.sb u0 0 0 = some (none, u0) :=
  claim_C9 dz dz.sb u0 0 0 (by decide)

/-- Claim C2: for every non-root directory inode, the count of directory
entries system-wide whose inum equals its inode number, summed over every
entry record of every directory inode and its direct and indirect data
blocks, must equal exactly 1 (check 12); when the count differs and the
step reaches check 12, the run aborts with exactly "directory appears more
than once in file system". -/
theorem claim_C2 (d : Disk) (sb : Superblock) (nd : Dinode) (u : InUse) (n fuel : Nat) :
    (error_check_12 d sb nd n = 1 ↔ specCountRefs d sb n ≠ 1) ∧
    ((readInode d sb n).type = T_DIR → n ≠ 1 →
      error_check_2 d sb (readInode d sb n) = 0 →
      error_check_5 d sb (readInode d sb n) = 0 →
      (error_check_7 (readInode d sb n) u).1 = 0 →
      (error_check_8 d (readInode d sb n) (error_check_7 (readInode d sb n) u).2).1 = 0 →
      error_check_4 d (readInode d sb n) n = 0 →
      error_check_9 d sb n fuel = some 0 →
      (stepMsg d sb u n fuel = some (some msgDirDup) ↔ specCountRefs d sb n ≠ 1)) := by
  refine ⟨ec12_one_iff d sb nd n, ?_⟩
  intro htd hn h2 h5 h7 h8 h4 h9
  have h1 : error_check_1 (readInode d sb n) = 0 := by
    unfold error_check_1
    rw [if_neg (fun hcon => hcon.2.2.1 htd)]
  simp only [stepMsg, inodeStep, typeChecks, dirChecks]
  rw [h1, if_neg (by decide : ¬(0 : Nat) = 1),
    if_pos (show (readInode d sb n).type ≠ 0 from by rw [htd]; decide),
    h2, if_neg (by decide : ¬(0 : Nat) = 1),
    h5, if_neg (by decide : ¬(0 : Nat) = 1),
    h7, if_neg (by decide : ¬(0 : Nat) = 1),
    h8, if_neg (by decide : ¬(0 : Nat) = 1),
    if_pos htd,
    h4, if_neg (by decide : ¬(0 : Nat) = 1),
    if_pos hn, h9]
  dsimp only
  rw [if_neg (by decide : ¬(0 : Nat) = 1)]
  by_cases h12 : error_check_12 d sb (readInode d sb n) n = 1
  · rw [if_pos h12]
    constructor
    · intro _
      exact (ec12_one_iff d sb (readInode d sb n) n).mp h12
    · intro _
      rfl
  · rw [if_neg h12]
    constructor
    · intro hmsg
      exfalso
      by_cases h10 : error_check_10 d sb (readInode d sb n) = 1
      · rw [if_pos h10] at hmsg
        exact absurd (mapFst_some_eq _ _ _ hmsg) (by decide)
      · rw [if_neg h10] at hmsg
        exact absurd (mapFst_some_eq _ _ _ hmsg) (by decide)
    · intro hs
      exact absurd ((ec12_one_iff d sb (readInode d sb n) n).mpr hs) h12

/-- Claim C2 witness: on the image dThreeDirs, the directory inode 2 is
named by three entry records (one in the root, its own "." entry, and the
first record of the block of directory 3), so its step aborts with the
multiple-appearance diagnostic. -/
theorem claim_C2_witness :
    ((readInode dThreeDirs (sbX 4) 2).type = T_DIR ∧
     error_check_4 dThreeDirs (readInode dThreeDirs (sbX 4) 2) 2 = 0 ∧
     error_check_9 dThreeDirs (sbX 4) 2 20 = some 0 ∧
     specCountRefs dThreeDirs (sbX 4) 2 ≠ 1) ∧
    stepMsg dThreeDirs (sbX 4) u0 2 20 = some (some msgDirDup) := by
  refine ⟨⟨by decide, by decide, by decide, by decide⟩, ?_⟩
  exact ((claim_C2 dThreeDirs (sbX 4) (readInode dThreeDirs (sbX 4) 2) u0 2 20).2
    (by decide) (by decide) (by decide) (by decide) (by decide) (by decide)
    (by decide) (by decide)).mpr (by decide)

/-- Claim C8: for every inode of type File, the number of directory
entries system-wide whose inum equals its inode number, counted over every
entry record of every directory inode and its direct and indirect data
blocks, must equal the stored link count nlink (check 11); when the count
differs and the step reaches check 11, the run aborts with exactly "bad
reference count for file". -/
theorem claim_C8 (d : Disk) (sb : Superblock) (nd : Dinode) (u : InUse) (n fuel : Nat) :
    (error_check_11 d sb nd n = 1 ↔ specCountRefs d sb n ≠ nd.nlink) ∧
    ((readInode d sb n).type = T_FILE →
      error_check_2 d sb (readInode d sb n) = 0 →
      error_check_5 d sb (readInode d sb n) = 0 →
      (error_check_7 (readInode d sb n) u).1 = 0 →
      (error_check_8 d (readInode d sb n) (error_check_7 (readInode d sb n) u).2).1 = 0 →
      (stepMsg d sb u n fuel = some (some msgRefCnt) ↔
        specCountRefs d sb n ≠ (readInode d sb n).nlink)) := by
  refine ⟨ec11_one_iff d sb nd n, ?_⟩
  intro htf h2 h5 h7 h8
  have h1 : error_check_1 (readInode d sb n) = 0 := by
    unfold error_check_1
    rw [if_neg (fun hcon => hcon.2.2.2 htf)]
  simp only [stepMsg, inodeStep, typeChecks]
  rw [h1, if_neg (by decide : ¬(0 : Nat) = 1),
    if_pos (show (readInode d sb n).type ≠ 0 from by rw [htf]; decide),
    h2, if_neg (by decide : ¬(0 : Nat) = 1),
    h5, if_neg (by decide : ¬(0 : Nat) = 1),
    h7, if_neg (by decide : ¬(0 : Nat) = 1),
    h8, if_neg (by decide : ¬(0 : Nat) = 1),
    if_neg (show ¬(readInode d sb n).type = T_DIR from by rw [htf]; decide),
    if_pos htf]
  by_cases h11 : error_check_11 d sb (readInode d sb n) n = 1
  · rw [if_pos h11]
    constructor
    · intro _
      exact (ec11_one_iff d sb (readInode d sb n) n).mp h11
    · intro _
      rfl
  · rw [if_neg h11]
    constructor
    · intro hmsg
      exact absurd (mapFst_some_eq _ _ _ hmsg) (by decide)
    · intro hs
      exact absurd ((ec11_one_iff d sb (readInode d sb n) n).mpr hs) h11

/-- Claim C8 witness: on the image dFileBad the file inode 2 has nlink 1
but no entry record names it, so its step aborts with the reference-count
diagnostic. -/
theorem claim_C8_witness :
    ((readInode dFileBad (sbX 3) 2).type = T_FILE ∧
     specCountRefs dFileBad (sbX 3) 2 ≠ (readInode dFileBad (sbX 3) 2).nlink) ∧
    stepMsg dFileBad (sbX 3) u0 2 1 = some (some msgRefCnt) := by
  refine ⟨⟨by decide, by decide⟩, ?_⟩
  exact ((claim_C8 dFileBad (sbX 3) (readInode dFileBad (sbX 3) 2) u0 2 1).2
    (by decide) (by decide) (by decide) (by decide) (by decide)).mpr (by decide)

/-- Claim C7 counterexample: the claim counts shape matches over all of a
directory inode entry records, the blocks named by its indirect block
included.  The inode ndShape on the image dShapeInd has a proper "." and
".." pair in its direct block 8 and one extra ".." entry in block 10,
which is named by its indirect block; the total count is 3, yet
error_check_4 passes because it scans the direct blocks only. -/
theorem claim_C7_counterexample :
    error_check_4 dShapeInd ndShape 7 = 0 ∧ specShapeAll dShapeInd ndShape 7 ≠ 2 := by
  constructor
  · decide
  · decide

/-- Claim C7 as amended: for every directory inode, check 4 passes exactly
when the matches counted over the entry records of its direct data blocks
only (entries named "." with the inode own number plus entries named "..")
total exactly 2; on any other total, a directory step that reaches check 4
aborts with exactly "directory not properly formatted". -/
theorem claim_C7_amended (d : Disk) (sb : Superblock) (nd : Dinode) (u : InUse) (n fuel : Nat) :
    (error_check_4 d nd n = 0 ↔ specShapeDirect d nd n = 2) ∧
    ((readInode d sb n).type = T_DIR →
      error_check_2 d sb (readInode d sb n) = 0 →
      error_check_5 d sb (readInode d sb n) = 0 →
      (error_check_7 (readInode d sb n) u).1 = 0 →
      (error_check_8 d (readInode d sb n) (error_check_7 (readInode d sb n) u).2).1 = 0 →
      (stepMsg d sb u n fuel = some (some msgDirFmt) ↔
        specShapeDirect d (readInode d sb n) n ≠ 2)) := by
  refine ⟨ec4_zero_iff d nd n, ?_⟩
  intro htd h2 h5 h7 h8
  have h1 : error_check_1 (readInode d sb n) = 0 := by
    unfold error_check_1
    rw [if_neg (fun hcon => hcon.2.2.1 htd)]
  simp only [stepMsg, inodeStep, typeChecks, dirChecks]
  rw [h1, if_neg (by decide : ¬(0 : Nat) = 1),
    if_pos (show (readInode d sb n).type ≠ 0 from by rw [htd]; decide),
    h2, if_neg (by decide : ¬(0 : Nat) = 1),
    h5, if_neg (by decide : ¬(0 : Nat) = 1),
    h7, if_neg (by decide : ¬(0 : Nat) = 1),
    h8, if_neg (by decide : ¬(0 : Nat) = 1),
    if_pos htd]
  by_cases h4 : error_check_4 d (readInode d sb n) n = 1
  · rw [if_pos h4]
    constructor
    · intro _
      intro hs
      exact absurd ((ec4_zero_iff d (readInode d sb n) n).mpr hs) (by rw [h4]; decide)
    · intro _
      rfl
  · rw [if_neg h4]
    have h4z : error_check_4 d (readInode d sb n) n = 0 := by
      unfold error_check_4 at h4 ⊢
      split_ifs at h4 ⊢ with hc
      · exact absurd rfl h4
      · rfl
    have hs2 : specShapeDirect d (readInode d sb n) n = 2 :=
      (ec4_zero_iff d (readInode d sb n) n).mp h4z
    constructor
    · intro hmsg
      exfalso
      by_cases hn : n ≠ 1
      · rw [if_pos hn] at hmsg
        cases hv : error_check_9 d sb n fuel with
        | none =>
          rw [hv] at hmsg
          exact absurd hmsg (by simp)
        | some r9 =>
          rw [hv] at hmsg
          dsimp only at hmsg
          by_cases h9 : r9 = 1
          · rw [if_pos h9] at hmsg
            exact absurd (mapFst_some_eq _ _ _ hmsg) (by decide)
          · rw [if_neg h9] at hmsg
            by_cases h12 : error_check_12 d sb (readInode d sb n) n = 1
            · rw [if_pos h12] at hmsg
              exact absurd (mapFst_some_eq _ _ _ hmsg) (by decide)
            · rw [if_neg h12] at hmsg
              by_cases h10 : error_check_10 d sb (readInode d sb n) = 1
              · rw [if_pos h10] at hmsg
                exact absurd (mapFst_some_eq _ _ _ hmsg) (by decide)
              · rw [if_neg h10] at hmsg
                exact absurd (mapFst_some_eq _ _ _ hmsg) (by decide)
      · rw [if_neg hn] at hmsg
        by_cases h10 : error_check_10 d sb (readInode d sb n) = 1
        · rw [if_pos h10] at hmsg
          exact absurd (mapFst_some_eq _ _ _ hmsg) (by decide)
        · rw [if_neg h10] at hmsg
          exact absurd (mapFst_some_eq _ _ _ hmsg) (by decide)
    · intro hs
      exact absurd hs2 hs

/-- Claim C7 amended witness: on the image dBadShape the directory inode 2
has a single "." entry in its block, a direct shape count of 1, and its
step aborts with the formatting diagnostic. -/
theorem claim_C7_witness :
    ((readInode dBadShape (sbX 3) 2).type = T_DIR ∧
     specShapeDirect dBadShape (readInode dBadShape (sbX 3) 2) 2 ≠ 2) ∧
    stepMsg dBadShape (sbX 3) u0 2 1 = some (some msgDirFmt) := by
  refine ⟨⟨by decide, by decide⟩, ?_⟩
  exact ((claim_C7_amended dBadShape (sbX 3) (readInode dBadShape (sbX 3) 2) u0 2 1).2
    (by decide) (by decide) (by decide) (by decide) (by decide)).mpr (by decide)

/-- Claim C4 counterexample: the claim addresses the bitmap bit of block b
as bit b mod 8 of bitmap byte b / 8.  On the image dBitmapSkew no data
block has its bit set under that addressing, yet error_check_6 reports a
violation, because the sweep starts reading at byte offset
bmapstart*BSIZE + size/8 - nblocks/8 and pairs the bits it reads with
block numbers counted from bmapstart + 1. -/
theorem claim_C4_counterexample :
    error_check_6 dBitmapSkew (sbX 0) u0 = 1 ∧ ¬ specBitmapViol dBitmapSkew (sbX 0) u0 := by
  constructor
  · decide
  · decide

/-- Claim C4 as amended: the bitmap sweep (check 6) reports a violation
exactly when, for some iteration t with bmapstart+1+8t below total_blocks,
some bit off of the byte read at offset bmapstart*BSIZE + size/8 -
nblocks/8 + t is set while the usage entry of block bmapstart+1+8t+off is
zero; and the sweep runs only after the whole inode loop has passed, since
a run that aborts with "bitmap marks block in use but it is not in use"
has a passing root check and a passing scan of every inode. -/
theorem claim_C4_amended (d : Disk) (sb : Superblock) (u : InUse) (fuel : Nat) :
    (error_check_6 d sb u = 1 ↔ ec6Hits d sb u) ∧
    (runMain d fuel = some (1, some msgBitmap) →
      error_check_3 d d.sb = 0 ∧ scanMsg d d.sb fuel 0 d.sb.ninodes u0 = some none) := by
  refine ⟨ec6_one_iff d sb u, ?_⟩
  intro h
  unfold runMain at h
  by_cases h3 : error_check_3 d d.sb = 1
  · rw [if_pos h3] at h
    injection h with hp
    injection hp with hc hm
    injection hm with hm2
    exact absurd hm2 (by decide)
  · rw [if_neg h3] at h
    refine ⟨?_, ?_⟩
    · rcases ec3_zero_or_one d d.sb with hz | ho
      · exact hz
      · exact absurd ho h3
    · cases hs : scanFrom d d.sb fuel 0 d.sb.ninodes u0 with
      | none =>
        rw [hs] at h
        exact absurd h (by simp)
      | some p =>
        rcases p with ⟨msg, st⟩
        cases msg with
        | some e =>
          rcases e with ⟨idx, m⟩
          rw [hs] at h
          dsimp only at h
          injection h with hp
          injection hp with hc hm
          injection hm with hm2
          exfalso
          rcases scanFrom_abort_msg d d.sb fuel d.sb.ninodes 0 u0 idx m st hs with
            he | he | he | he | he | he | he | he | he | he <;>
            rw [he] at hm2 <;> exact absurd hm2 (by decide)
        | none =>
          unfold scanMsg
          rw [hs]
          rfl

/-- Claim C4 amended witness: on the image dRootOnly the root check and
the whole inode scan pass, and the run aborts with the bitmap diagnostic
because the sweep byte at offset 1537 has bit 5 set while block 9 is
unreferenced. -/
theorem claim_C4_witness :
    error_check_3 dRootOnly dRootOnly.sb = 0 ∧
    scanMsg dRootOnly dRootOnly.sb 1 0 dRootOnly.sb.ninodes u0 = some none :=
  (claim_C4_amended dRootOnly (sbX 2) u0 1).2 (by decide)

/-- Claim C6: when two distinct non-free inodes a < b both list the same
non-zero block number x among their address slots (the indirect slot
included), and the scan passes every inode before b while inode b passes
checks 1, 2 and 5, the run aborts while processing inode b with exactly
"direct address used more than once": the usage table was already marked
when inode a was processed. -/
theorem claim_C6 (d : Disk) (a b x fuel : Nat)
    (hab : a < b) (hb : b < d.sb.ninodes)
    (h3 : error_check_3 d d.sb = 0)
    (hta : (readInode d d.sb a).type ≠ 0)
    (h1b : error_check_1 (readInode d d.sb b) = 0)
    (htb : (readInode d d.sb b).type ≠ 0)
    (hx : x ≠ 0)
    (hxa : ∃ i < NDIRECT + 1, (readInode d d.sb a).addrs i = x)
    (hxb : ∃ i < NDIRECT + 1, (readInode d d.sb b).addrs i = x)
    (hscan : scanMsg d d.sb fuel 0 b u0 = some none)
    (h2b : error_check_2 d d.sb (readInode d d.sb b) = 0)
    (h5b : error_check_5 d d.sb (readInode d d.sb b) = 0) :
    scanMsg d d.sb fuel 0 d.sb.ninodes u0 = some (some (b, msgDupDirect)) ∧
    runMain d fuel = some (1, some msgDupDirect) := by
  have hsf : ∃ st, scanFrom d d.sb fuel 0 b u0 = some (none, st) := by
    unfold scanMsg at hscan
    cases hs : scanFrom d d.sb fuel 0 b u0 with
    | none =>
      rw [hs] at hscan
      exact absurd hscan (by simp)
    | some p =>
      rcases p with ⟨msg, st⟩
      rw [hs] at hscan
      simp only [Option.map_some'] at hscan
      injection hscan with hm
      have hmn : msg = none := hm
      subst hmn
      exact ⟨st, rfl⟩
  rcases hsf with ⟨st, hs⟩
  rcases hxa with ⟨ia, hia, hea⟩
  have hmark : st x ≠ 0 := by
    have hmm := scanFrom_marks d d.sb fuel b 0 u0 st hs a (by omega) (by omega) hta ia hia
      (by rw [hea]; exact hx)
    rw [hea] at hmm
    exact hmm
  rcases hxb with ⟨ib, hib, heb⟩
  have h7b : (error_check_7 (readInode d d.sb b) st).1 = 1 := by
    apply ec7_hit
    exact ⟨ib, hib, by rw [heb]; exact hx, by rw [heb]; exact hmark⟩
  have hstepb : inodeStep d d.sb st b fuel =
      some (some msgDupDirect, (error_check_7 (readInode d d.sb b) st).2) := by
    simp only [inodeStep]
    rw [h1b, if_neg (by decide : ¬(0 : Nat) = 1), if_pos htb,
      h2b, if_neg (by decide : ¬(0 : Nat) = 1),
      h5b, if_neg (by decide : ¬(0 : Nat) = 1),
      if_pos h7b]
  have hk : d.sb.ninodes = b + (d.sb.ninodes - b) := by omega
  have hk2 : d.sb.ninodes - b = (d.sb.ninodes - b - 1) + 1 := by omega
  have habort : scanFrom d d.sb fuel 0 d.sb.ninodes u0 =
      some (some (b, msgDupDirect), (error_check_7 (readInode d d.sb b) st).2) := by
    rw [hk, scanFrom_split d d.sb fuel b (d.sb.ninodes - b) 0 u0, hs]
    dsimp only
    rw [Nat.zero_add, hk2]
    simp only [scanFrom, hstepb]
  constructor
  · unfold scanMsg
    rw [habort]
    rfl
  · unfold runMain
    rw [if_neg (show ¬ error_check_3 d d.sb = 1 from by rw [h3]; decide), habort]

/-- Claim C6 witness: on the image dShared the root inode 1 and the file
inode 2 both list block 8; the scan passes inodes 0 and 1 and aborts at
inode 2 with the duplicate-direct-address diagnostic. -/
theorem claim_C6_witness :
    (1 < 2 ∧ 2 < dShared.sb.ninodes ∧ error_check_3 dShared dShared.sb = 0 ∧
     scanMsg dShared dShared.sb 1 0 2 u0 = some none) ∧
    scanMsg dShared dShared.sb 1 0 dShared.sb.ninodes u0 = some (some (2, msgDupDirect)) ∧
    runMain dShared 1 = some (1, some msgDupDirect) := by
  refine ⟨⟨by decide, by decide, by decide, by decide⟩, ?_⟩
  exact claim_C6 dShared 1 2 8 1 (by decide) (by decide) (by decide) (by decide)
    (by decide) (by decide) (by decide) ⟨0, by decide, by decide⟩ ⟨0, by decide, by decide⟩
    (by decide) (by decide) (by decide)

/-- Claim C10 counterexample: the claim asserts that a directory inode
whose only directory-entry reference lies in the root directory makes
error_check_9 return 1.  On the image dOrphan the directory inode 2 is
referenced exactly once, by the entry in the root block, yet error_check_9
never returns 1 for any fuel: the candidate directory inode 3 exists, and
scanning it neither finds inode 2 nor terminates. -/
theorem claim_C10_counterexample :
    ((readInode dOrphan (sbX 4) 2).type = T_DIR ∧
     specCountRefs dOrphan (sbX 4) 2 = 1 ∧
     (readInode dOrphan (sbX 4) 1).addrs 0 = 8 ∧
     (dOrphan.direntAt (8 * BSIZE + 2 * direntSize)).inum = 2) ∧
    ec9NeverOne dOrphan (sbX 4) 2 := by
  refine ⟨⟨by decide, by decide, by decide, by decide⟩, ?_⟩
  intro fuel h
  exact (ec9Go_one_no_cand dOrphan (sbX 4) 2 fuel 0 h 3 (by omega) (by decide)) (by decide)

/-- Claim C10 as amended: the candidate-parent loop of check 9 excludes
inode index 1 as well as the checked inode itself; consequently
error_check_9 returns 1 exactly in the absence of any candidate parent
directory, and a non-root directory inode of an image whose only
directories are the root and itself -- in particular one referenced only
from the root -- aborts the run with exactly "inode marked use but not
found in a directory" once its step reaches check 9. -/
theorem claim_C10_amended (d : Disk) (sb : Superblock) (u : InUse) (n fuel : Nat)
    (htd : (readInode d sb n).type = T_DIR) (hn : n ≠ 1)
    (hnc : ∀ c < sb.ninodes, ¬((readInode d sb c).type = T_DIR ∧ n ≠ c ∧ c ≠ 1))
    (hfuel : sb.ninodes + 1 ≤ fuel)
    (h2 : error_check_2 d sb (readInode d sb n) = 0)
    (h5 : error_check_5 d sb (readInode d sb n) = 0)
    (h7 : (error_check_7 (readInode d sb n) u).1 = 0)
    (h8 : (error_check_8 d (readInode d sb n) (error_check_7 (readInode d sb n) u).2).1 = 0)
    (h4 : error_check_4 d (readInode d sb n) n = 0) :
    error_check_9 d sb n fuel = some 1 ∧
    stepMsg d sb u n fuel = some (some msgNotFound) := by
  have h9 : error_check_9 d sb n fuel = some 1 :=
    ec9Go_no_cand_one d sb n fuel 0 (fun c _ hc => hnc c hc) (by omega) (by omega)
  refine ⟨h9, ?_⟩
  have h1 : error_check_1 (readInode d sb n) = 0 := by
    unfold error_check_1
    rw [if_neg (fun hcon => hcon.2.2.1 htd)]
  simp only [stepMsg, inodeStep, typeChecks, dirChecks]
  rw [h1, if_neg (by decide : ¬(0 : Nat) = 1),
    if_pos (show (readInode d sb n).type ≠ 0 from by rw [htd]; decide),
    h2, if_neg (by decide : ¬(0 : Nat) = 1),
    h5, if_neg (by decide : ¬(0 : Nat) = 1),
    h7, if_neg (by decide : ¬(0 : Nat) = 1),
    h8, if_neg (by decide : ¬(0 : Nat) = 1),
    if_pos htd,
    h4, if_neg (by decide : ¬(0 : Nat) = 1),
    if_pos hn, h9]
  dsimp only
  rw [if_pos (rfl : (1 : Nat) = 1)]
  rfl

/-- Claim C10 amended witness: on the image dTwoDirs the only directories
are the root and inode 2, which the root references; the step of inode 2
reaches check 9, which returns 1, and aborts with the
not-found-in-a-directory diagnostic. -/
theorem claim_C10_witness :
    ((readInode dTwoDirs (sbX 3) 2).type = T_DIR ∧
     (∀ c < (sbX 3).ninodes,
        ¬((readInode dTwoDirs (sbX 3) c).type = T_DIR ∧ 2 ≠ c ∧ c ≠ 1))) ∧
    error_check_9 dTwoDirs (sbX 3) 2 10 = some 1 ∧
    stepMsg dTwoDirs (sbX 3) u0 2 10 = some (some msgNotFound) := by
  refine ⟨⟨by decide, by decide⟩, ?_⟩
  exact claim_C10_amended dTwoDirs (sbX 3) u0 2 10 (by decide) (by decide) (by decide)
    (by decide) (by decide) (by decide) (by decide) (by decide) (by decide)


end XCheck
